import Mathlib

/-!
# KiBot variant/filter engine, board mutation engine and print compositor

A shallow embedding of the component-variant filtering pipeline, the
reversible board-mutation operations and the color/scaling logic of the
`pcb_print` compositor, translated from `kibot/out_base.py` and
`kibot/out_pcb_print.py`, together with proofs of the specified properties.

Python strings are modelled as Lean `String` (a list of characters), Python
lists as Lean lists, the `pcbnew` object graph as explicit record types, and
in-place mutation as explicit state passing.  Floating point arithmetic is
modelled by exact rational arithmetic and Python `int()` truncation by floor
division.
-/

set_option autoImplicit false

namespace KiBot

/-! ## String helpers mirroring the Python primitives used by the code -/

/-- Helper for `replaceChars`: with `skip = 0` scan for the pattern; after a
match the remaining `pat.length - 1` characters of the matched occurrence are
consumed without further matching, so replacement is left-to-right and
non-overlapping, as for Python `str.replace`. -/
def replaceAux (pat rep : List Char) : Nat → List Char → List Char
  | _, [] => []
  | Nat.succ skip, _ :: rest => replaceAux pat rep skip rest
  | 0, c :: rest =>
    if pat ≠ [] ∧ pat.isPrefixOf (c :: rest) then
      rep ++ replaceAux pat rep (pat.length - 1) rest
    else
      c :: replaceAux pat rep 0 rest

/-- Python `s.replace(pat, rep)`: left-to-right, non-overlapping replacement of
every occurrence of `pat` (when `pat` is non-empty; the code never calls it
with an empty pattern). -/
def replaceChars (pat rep : List Char) (s : List Char) : List Char :=
  replaceAux pat rep 0 s

/-- Python `s.replace(pat, rep)` on `String`. -/
def pyReplace (s pat rep : String) : String :=
  ⟨replaceChars pat.data rep.data s.data⟩

/-- Python `s.split(',')` (the only separator used by the code). -/
def splitOnChar (sep : Char) : List Char → List (List Char)
  | [] => [[]]
  | c :: rest =>
    let r := splitOnChar sep rest
    if c = sep then [] :: r
    else (c :: r.headD []) :: r.tail

def pySplitComma (s : String) : List String :=
  (splitOnChar ',' s.data).map (fun l => String.mk l)

/-- Python whitespace for `str.strip`. -/
def isSpaceChar (c : Char) : Bool :=
  c = ' ' ∨ c = '\t' ∨ c = '\n' ∨ c = '\r' ∨ c = '\x0b' ∨ c = '\x0c'

/-- Python `s.strip()`. -/
def pyStrip (s : String) : String :=
  ⟨((s.data.dropWhile isSpaceChar).reverse.dropWhile isSpaceChar).reverse⟩

/-- Python `int(v)` on the digit-only strings extracted by the slot regex. -/
def digitsToNat (l : List Char) : Nat :=
  l.foldl (fun a c => 10 * a + (c.toNat - '0'.toNat)) 0

/-- Python `s[:n]` for `n ≥ 0`. -/
def strTake (s : String) (n : Nat) : String :=
  ⟨s.data.take n⟩

/-- Python `s[:-n]`; it is only invoked with `0 < n` (the length of the
non-empty disable sentinel), where it drops the last `n` characters (all of
them when `n` exceeds the length). -/
def strDropRight (s : String) (n : Nat) : String :=
  ⟨s.data.take (s.data.length - n)⟩

/-- Python `s.split(',')` guarded by the code's emptiness test:
`g.split(',') if g else []`. -/
def splitSlots (g : String) : List String :=
  if g = "" then [] else pySplitComma g

/-! ## Component data model

`Component` is the schematic component record manipulated by the filter
chain: a reference designator, the `fitted`/`included` flags and the ordered
field list (§3 of the spec). -/

structure Component where
  ref : String
  fitted : Bool
  included : Bool
  fields : List (String × String)
deriving Repr, DecidableEq

/-- Modelled from the spec: `Component.get_field_value` lives in the schematic
support code, which is not among the sources at hand; per the data model a
component carries an ordered list of field name/value pairs and a field lookup
returns the value of the named field (empty when absent). -/
def get_field_value (c : Component) (name : String) : String :=
  (((c.fields.find? (fun f => f.1 = name)).map (fun f => f.2)).getD "")

/-! ## Filter primitives

`reset_filters`, `apply_pre_transform`, `apply_fitted_filter` and the variant
filter live in `kibot/fil_base.py`, which is not among the sources at hand;
they are modelled from the spec (§4.1): a pre-transform rewrites fields only,
the reset sets the `fitted=true, included=true` baseline, the DNF filter marks
matching components not fitted, and the variant produces the final
fitted/included flags of every component. -/

/-- Modelled from the spec: reset all fitted/included flags to the baseline
`fitted=true, included=true`. -/
def reset_filters (comps : List Component) : List Component :=
  comps.map (fun c => { c with fitted := true, included := true })

/-- Modelled from the spec: a pre-transform filter chain performs field
rewriting only (it never touches the reference or the flags). -/
def apply_pre_transform (tr : List (String × String) → List (String × String))
    (comps : List Component) : List Component :=
  comps.map (fun c => { c with fields := tr c.fields })

/-- Modelled from the spec: the DNF filter marks the components it matches as
not fitted. -/
def apply_fitted_filter (dnf : Component → Bool) (comps : List Component) :
    List Component :=
  comps.map (fun c => if dnf c then { c with fitted := false } else c)

/-- Modelled from the spec: a variant filter produces the final
fitted/included flags for every component (it may consult the whole
component, fields and current flags included). -/
def apply_variant (v : Component → Bool × Bool) (comps : List Component) :
    List Component :=
  comps.map (fun c => { c with fitted := (v c).1, included := (v c).2 })

/-- The resolve pipeline of `VariantOptions.run` (out_base.py lines 905-921):
reset the flags, apply the pre-transform, apply the DNF filter and finally the
variant when one is configured. -/
def variant_resolve (tr : List (String × String) → List (String × String))
    (dnf : Component → Bool) (v : Option (Component → Bool × Bool))
    (comps : List Component) : List Component :=
  let comps := reset_filters comps
  let comps := apply_pre_transform tr comps
  let comps := apply_fitted_filter dnf comps
  match v with
  | some vf => apply_variant vf comps
  | none => comps

/-- `VariantOptions.get_fitted_refs`. -/
def get_fitted_refs (comps : List Component) : List String :=
  if comps.isEmpty then []
  else (comps.filter (fun c => c.fitted && c.included)).map (fun c => c.ref)

/-- `VariantOptions.get_not_fitted_refs`. -/
def get_not_fitted_refs (comps : List Component) : List String :=
  if comps.isEmpty then []
  else (comps.filter (fun c => !c.fitted || !c.included)).map (fun c => c.ref)

/-! ## Scaling (`PCB_PrintOptions.set_scaling`, out_pcb_print.py 819-829) -/

/-- `pcbnew.FromMM`: millimetres to board internal units (nanometres),
modelled exactly over the rationals. -/
def fromMM (x : ℚ) : ℚ := x * 1000000

/-- `set_scaling`: an explicit non-zero scale is used as given; a zero scale
requests autoscaling from the paper size and the board bounding box size
(`szx`, `szy`, in internal units). -/
def set_scaling (scaling paper_w paper_h szx szy : ℚ) : ℚ :=
  if scaling ≠ 0 then scaling
  else min (fromMM paper_w / szx) (fromMM paper_h / szy)

/-! ## Color handling (out_pcb_print.py 83-120) -/

/-- Value of a hexadecimal digit, as accepted by Python `int(s, 16)`
(out of range characters cannot occur on validated colors). -/
def hexVal (c : Char) : Nat :=
  if '0' ≤ c ∧ c ≤ '9' then c.toNat - '0'.toNat
  else if 'a' ≤ c ∧ c ≤ 'f' then c.toNat - 'a'.toNat + 10
  else if 'A' ≤ c ∧ c ≤ 'F' then c.toNat - 'A'.toNat + 10
  else 0

/-- The hexadecimal digits used by Python `'%02X'` formatting. -/
def hexDigitChar (n : Nat) : Char :=
  ("0123456789ABCDEF".data.getD n '0')

/-- Python `'%02X' % n` for the byte values produced here. -/
def hex2 (n : Nat) : String :=
  ⟨[hexDigitChar (n / 16), hexDigitChar (n % 16)]⟩

/-- `to_gray_hex` (out_pcb_print.py 97-101): parse the `#rrggbb` color (the
leading `#` characters are stripped as by `str.lstrip`), average the three
channels and emit the gray with that value in every channel.  The float
computation `int(((r+g+b)/255/3)*255)` is modelled by exact floor division. -/
def to_gray_hex (color : String) : String :=
  let v := color.data.dropWhile (fun c => c = '#')
  let r := 16 * hexVal (v.getD 0 '0') + hexVal (v.getD 1 '0')
  let g := 16 * hexVal (v.getD 2 '0') + hexVal (v.getD 3 '0')
  let b := 16 * hexVal (v.getD 4 '0') + hexVal (v.getD 5 '0')
  let avg := (r + g + b) / 3
  "#" ++ hex2 avg ++ hex2 avg ++ hex2 avg

/-- `load_svg` (out_pcb_print.py 104-120) on the file's contents: truncate the
color to `#rrggbb`, gray both colors when monochrome, protect the white holes,
substitute the plotted black (`#000000`) and the printed black
(`stroke:rgb(0%,0%,0%)`) by the layer color unless that color is black, and
finally color the holes. -/
def load_svg (content color : String) (colored_holes : Bool)
    (holes_color : String) (monochrome : Bool) : String :=
  let color := strTake color 7
  let color2 := if monochrome then to_gray_hex color else color
  let holes2 := if monochrome then to_gray_hex holes_color else holes_color
  let content := if colored_holes then pyReplace content "#FFFFFF" "**black_hole**" else content
  let content :=
    if color2 ≠ "#000000" then
      pyReplace (pyReplace content "#000000" color2)
        "stroke:rgb(0%,0%,0%)" ("stroke:" ++ color2)
    else content
  if colored_holes then pyReplace content "**black_hole**" holes2 else content

/-! ## 3D models (out_base.py 471-583) -/

structure Model3D where
  filename : String
deriving Repr, DecidableEq

/-- Modelled from the spec: `DISABLE_3D_MODEL_TEXT` is defined in
`kibot/misc.py`, which is not among the sources at hand; the spec only
requires a fixed non-empty sentinel suffix appended to model-file paths. -/
def DISABLE_3D_MODEL_TEXT : String := "_Disabled_by_KiBot"

/-- The conversion `[int(v) for v in slots if v]` at the head of
`apply_list_of_3D_models`. -/
def slotsNat (slots : List String) : List Nat :=
  (slots.filter (fun v => v ≠ "")).map (fun v => digitsToNat v.data)

/-- `apply_list_of_3D_models` (out_base.py 564-583): the models are popped
from the back and re-inserted at the front, so the traversal visits them in
their original order; every model whose 1-based index is not in the slot list
has the sentinel appended (disable) or its last `len(sentinel)` characters
dropped (enable). -/
def apply_list_of_3D_models (enable : Bool) (slots : List String)
    (models : List Model3D) : List Model3D :=
  models.enum.map (fun p =>
    if (p.1 + 1) ∈ slotsNat slots then p.2
    else if enable then
      { p.2 with filename := strDropRight p.2.filename DISABLE_3D_MODEL_TEXT.length }
    else
      { p.2 with filename := p.2.filename ++ DISABLE_3D_MODEL_TEXT })

/-- `replace_3D_models` (out_base.py 471-497).  The models are popped from the
back, so `models_l` holds them in reverse order; with more than one model the
replacement list is the comma-split field value and a count mismatch is a
fatal configuration error; the i-th entry of the (reversed) traversal receives
the i-th replacement and the original filenames are recorded (in that reversed
order) for undo.  Returns the new model list together with the recorded
`undo_3d_models_rep` entry. -/
def replace_3D_models (models : List Model3D) (new_model : String)
    (c : Component) : Except String (List Model3D × List String) :=
  let models_l := models.reverse
  let c_models := models_l.length
  let reps : Except String (List String) :=
    if c_models > 1 then
      let nm := pySplitComma new_model
      if c_models ≠ nm.length then
        .error ("Found " ++ toString c_models ++ " models in component " ++
          c.ref ++ ", but " ++ toString nm.length ++ " replacements provided")
      else .ok nm
    else .ok [new_model]
  reps.map (fun nm =>
    let replaced := models_l.map (fun m => m.filename)
    ((models_l.zipWith (fun m r => { m with filename := r }) nm).reverse, replaced))

/-! ## Board data model

The slice of the `pcbnew` object graph that the mutation engine reads and
writes: per footprint the reference, the graphical items (class, layer and,
for `MTEXT` items, the text), the pads with their layer sets and the 3D model
list.  Geometry (positions, bounding boxes, widths) is carried by none of the
observables of the specified properties and is not represented. -/

structure GItem where
  cls : String
  layer : Nat
  text : String
deriving Repr, DecidableEq

structure Pad where
  layers : List Nat
deriving Repr, DecidableEq

structure Footprint where
  ref : String
  gitems : List GItem
  pads : List Pad
  models : List Model3D
deriving Repr, DecidableEq

structure Board where
  footprints : List Footprint
deriving Repr, DecidableEq

/-- The board layer identifiers the mutation engine looks up with
`board.GetLayerID`; `rescue` is the id of `GS.work_layer`. -/
structure LayerIds where
  fpaste : Nat
  bpaste : Nat
  fadhes : Nat
  badhes : Nat
  ffab : Nat
  bfab : Nat
  fmask : Nat
  bmask : Nat
  fcrtyd : Nat
  bcrtyd : Nat
  rescue : Nat
deriving Repr, DecidableEq

/-- The `GS.global_*` toggles consulted by the mutation engine. -/
structure Globals where
  cross_footprints_for_dnp : Bool
  remove_solder_paste_for_dnp : Bool
  remove_adhesive_for_dnp : Bool
  field_3D_model : String
deriving Repr, DecidableEq

/-- `get_refs_hash`: the dict comprehension keeps, for every reference, the
last component carrying it. -/
def refs_hash (comps : List Component) (r : String) : Option Component :=
  comps.reverse.find? (fun c => c.ref = r)

/-- The selection `c and c.included and not c.fitted` shared by the
cross/paste/model-removal passes. -/
def dnp_selected (ch : String → Option Component) (fp : Footprint) : Bool :=
  match ch fp.ref with
  | some c => c.included && !c.fitted
  | none => false

/-- The selection `c is not None and not c.included` of `remove_fab`. -/
def excluded_selected (ch : String → Option Component) (fp : Footprint) : Bool :=
  match ch fp.ref with
  | some c => !c.included
  | none => false

/-! ## 3D variant aspect (out_base.py 585-633) -/

/-- `re.match` of the pattern `\%([^:]+):([\d,]*)\%` (named-variant form,
with `%` replaced by `openC`/`closeC` so the same parser also covers the
variant-tag form `\$([^:]*):([\d,]*)\$`).  `re.match` anchors at the start
only, the first group is a maximal run of non-colon characters (required
non-empty exactly when `emptyName` is false), the second group a maximal run
of digits and commas, and both are deterministic because no backtracking can
succeed. -/
def parseMagic (openC closeC : Char) (emptyName : Bool) (s : String) :
    Option (String × String) :=
  match s.data with
  | [] => none
  | c :: rest =>
    if c = openC then
      let name := rest.takeWhile (fun x => x ≠ ':')
      if name.isEmpty ∧ ¬emptyName then none
      else
        match rest.dropWhile (fun x => x ≠ ':') with
        | [] => none
        | _ :: rest2 =>
          let slotsCs := rest2.takeWhile (fun x => x.isDigit ∨ x = ',')
          match rest2.dropWhile (fun x => x.isDigit ∨ x = ',') with
          | [] => none
          | c2 :: _ => if c2 = closeC then some (⟨name⟩, ⟨slotsCs⟩) else none
    else none

/-- `field_regex` of `apply_3D_variant_aspect`. -/
def parseNamed (s : String) : Option (String × String) :=
  parseMagic '%' '%' false s

/-- `field_regex_sp` of `apply_3D_variant_aspect`. -/
def parseTagged (s : String) : Option (String × String) :=
  parseMagic '$' '$' true s

/-- The text scan of `apply_3D_variant_aspect` for one footprint, returning
the slot list passed to `apply_list_of_3D_models`, if any.  `fallback` records
whether a `_default_` rule was seen and `last` the `slots` variable of the
Python loop (the slot list of the last text that matched either pattern);
after the loop the code applies `slots` — not the recorded default — whenever
a default was seen and no explicit rule matched. -/
def scanAspect (vname : String) (mv : String → Bool) :
    List GItem → Option Unit → List String → Option (List String)
  | [], fallback, last => if fallback.isSome then some last else none
  | gi :: rest, fallback, last =>
    if gi.cls = "MTEXT" then
      let text := pyStrip gi.text
      match parseNamed text with
      | some (var, g2) =>
        let slots := splitSlots g2
        if var = "_default_" then scanAspect vname mv rest (some ()) slots
        else if var = vname then some slots
        else scanAspect vname mv rest fallback slots
      | none =>
        match parseTagged text with
        | some (var, g2) =>
          let slots := splitSlots g2
          if mv var then some slots
          else scanAspect vname mv rest fallback slots
        | none => scanAspect vname mv rest fallback last
    else scanAspect vname mv rest fallback last

/-- The explicit-rule test of the scan: an `MTEXT` whose named-variant
pattern names the current variant (the `_default_` sentinel is never an
explicit rule) or whose variant-tag pattern satisfies `matches_variant`. -/
def explicitMatch (vname : String) (mv : String → Bool) (gi : GItem) :
    Option (List String) :=
  if gi.cls = "MTEXT" then
    let text := pyStrip gi.text
    match parseNamed text with
    | some (var, g2) =>
      if var = "_default_" then none
      else if var = vname then some (splitSlots g2) else none
    | none =>
      match parseTagged text with
      | some (var, g2) => if mv var then some (splitSlots g2) else none
      | none => none
  else none

/-- The slot list recorded by the `_default_` rules of a footprint (the
`default` variable of the Python loop: the last `_default_` text wins). -/
def defaultRule : List GItem → Option (List String)
  | [] => none
  | gi :: rest =>
    let r := defaultRule rest
    if r.isSome then r
    else if gi.cls = "MTEXT" then
      match parseNamed (pyStrip gi.text) with
      | some (var, g2) => if var = "_default_" then some (splitSlots g2) else none
      | none => none
    else none

/-- `apply_3D_variant_aspect` on one footprint. -/
def aspect_fp (vname : String) (mv : String → Bool) (enable : Bool)
    (fp : Footprint) : Footprint :=
  match scanAspect vname mv fp.gitems none [] with
  | some slots => { fp with models := apply_list_of_3D_models enable slots fp.models }
  | none => fp

/-- `apply_3D_variant_aspect` (out_base.py 585-633). -/
def apply_3D_variant_aspect (vname : String) (mv : String → Bool)
    (enable : Bool) (b : Board) : Board :=
  { footprints := b.footprints.map (aspect_fp vname mv enable) }

/-! ## Crossing not-fitted footprints (out_base.py 269-343)

The two cross segments are `MGRAPHIC` items drawn on the fab layer; their
geometry is not observable by any specified property and is elided.  A front
(resp. back) cross is drawn exactly when the footprint has an `MGRAPHIC`
graphical item on `F.Fab` (resp. `B.Fab`), which is when the measured
rectangle is non-empty.  `uncross_modules` removes exactly the added segment
objects, which sit at the tail of the item list. -/

def cross_segs (layer : Nat) : List GItem :=
  [⟨"MGRAPHIC", layer, ""⟩, ⟨"MGRAPHIC", layer, ""⟩]

def cross_fp (L : LayerIds) (fp : Footprint) : Footprint × Bool × Bool :=
  let hasF := fp.gitems.any (fun gi => gi.cls = "MGRAPHIC" && gi.layer = L.ffab)
  let hasB := fp.gitems.any (fun gi => gi.cls = "MGRAPHIC" && gi.layer = L.bfab)
  ({ fp with gitems := fp.gitems ++ (if hasF then cross_segs L.ffab else []) ++
      (if hasB then cross_segs L.bfab else []) }, hasF, hasB)

def cross_list (L : LayerIds) (ch : String → Option Component) :
    List Footprint → List Footprint × List Bool × List Bool
  | [] => ([], [], [])
  | fp :: rest =>
    let r := cross_list L ch rest
    if dnp_selected ch fp then
      let c := cross_fp L fp
      (c.1 :: r.1, c.2.1 :: r.2.1, c.2.2 :: r.2.2)
    else (fp :: r.1, r.2.1, r.2.2)

def cross_modules (G : Globals) (L : LayerIds) (ch : String → Option Component)
    (b : Board) : Board × List Bool × List Bool :=
  if G.cross_footprints_for_dnp then
    let r := cross_list L ch b.footprints
    (⟨r.1⟩, r.2.1, r.2.2)
  else (b, [], [])

def uncross_fp (hf hb : Bool) (fp : Footprint) : Footprint :=
  { fp with gitems :=
      fp.gitems.take (fp.gitems.length - ((cond hf 2 0) + (cond hb 2 0))) }

def uncross_list (ch : String → Option Component) :
    List Footprint → List Bool → List Bool → List Footprint
  | [], _, _ => []
  | fp :: rest, cf, cb =>
    if dnp_selected ch fp then
      uncross_fp (cf.headD false) (cb.headD false) fp ::
        uncross_list ch rest cf.tail cb.tail
    else fp :: uncross_list ch rest cf cb

def uncross_modules (G : Globals) (ch : String → Option Component) (b : Board)
    (cf cb : List Bool) : Board :=
  if G.cross_footprints_for_dnp then ⟨uncross_list ch b.footprints cf cb⟩ else b

/-! ## Paste/adhesive and fab-layer removal (out_base.py 345-469)

Graphical items moved off a layer are recorded by reference in the source;
in this embedding a reference is the item's position, so the records hold the
positions of the moved items of each processed footprint, in board order.
`l_gi` is read once per item, so each item is handled by at most one of the
two layer tests. -/

def move_two (la lb resc : Nat) (j : Nat) :
    List GItem → List GItem × List Nat × List Nat
  | [] => ([], [], [])
  | gi :: rest =>
    let r := move_two la lb resc (j+1) rest
    if gi.layer = la then ({ gi with layer := resc } :: r.1, j :: r.2.1, r.2.2)
    else if gi.layer = lb then ({ gi with layer := resc } :: r.1, r.2.1, j :: r.2.2)
    else (gi :: r.1, r.2.1, r.2.2)

def restore_two (la lb : Nat) (fa fb : List Nat) (j : Nat) :
    List GItem → List GItem
  | [] => []
  | gi :: rest =>
    let g1 := if j ∈ fa then { gi with layer := la } else gi
    let g2 := if j ∈ fb then { g1 with layer := lb } else g1
    g2 :: restore_two la lb fa fb (j+1) rest

/-- Modelled from the spec: the `W_WRONGPASTE` warning tag lives in
`kibot/misc.py`, which is not among the sources at hand. -/
def W_WRONGPASTE : String := "(WWRONGPASTE) "

def wrongPasteWarning (ref : String) : String :=
  W_WRONGPASTE ++ "Pad with solder paste, but no copper or solder mask aperture in " ++ ref

/-- The per-pad step of `remove_paste_and_glue`: strip the two paste layers;
a pad left with no layer at all receives the front solder mask layer (the
back one when it had no front paste) and flags a warning. -/
def process_pad (L : LayerIds) (p : Pad) : Pad × Bool :=
  let is_front := L.fpaste ∈ p.layers
  let pl := p.layers.filter (fun l => ¬(l = L.fpaste ∨ l = L.bpaste))
  if pl.length = 0 then
    (⟨pl ++ [if is_front then L.fmask else L.bmask]⟩, true)
  else (⟨pl⟩, false)

def paste_fp (G : Globals) (L : LayerIds) (fp : Footprint) :
    Footprint × List (List Nat) × (List Nat × List Nat) × List String :=
  let oldPads := fp.pads.map (fun p => p.layers)
  let prPads :=
    if G.remove_solder_paste_for_dnp then fp.pads.map (process_pad L)
    else fp.pads.map (fun p => (p, false))
  let warns := (prPads.filter (fun q => q.2)).map (fun _ => wrongPasteWarning fp.ref)
  let adh :=
    if G.remove_adhesive_for_dnp then move_two L.fadhes L.badhes L.rescue 0 fp.gitems
    else (fp.gitems, [], [])
  ({ fp with pads := prPads.map (fun q => q.1), gitems := adh.1 },
    oldPads, (adh.2.1, adh.2.2), warns)

def paste_list (G : Globals) (L : LayerIds) (ch : String → Option Component) :
    List Footprint →
    List Footprint × List (List (List Nat)) × List (List Nat × List Nat) × List String
  | [] => ([], [], [], [])
  | fp :: rest =>
    let r := paste_list G L ch rest
    if dnp_selected ch fp then
      let q := paste_fp G L fp
      (q.1 :: r.1, q.2.1 :: r.2.1, q.2.2.1 :: r.2.2.1, q.2.2.2 ++ r.2.2.2)
    else (fp :: r.1, r.2.1, r.2.2.1, r.2.2.2)

def remove_paste_and_glue (G : Globals) (L : LayerIds)
    (ch : String → Option Component) (b : Board) :
    Board × List (List (List Nat)) × List (List Nat × List Nat) × List String :=
  if G.remove_solder_paste_for_dnp ∨ G.remove_adhesive_for_dnp then
    let r := paste_list G L ch b.footprints
    (⟨r.1⟩, r.2.1, r.2.2.1, r.2.2.2)
  else (b, [], [], [])

def paste_restore_fp (G : Globals) (L : LayerIds) (fp : Footprint)
    (old : List (List Nat)) (ad : List Nat × List Nat) : Footprint :=
  let pads2 :=
    if G.remove_solder_paste_for_dnp then fp.pads.zipWith (fun _ o => Pad.mk o) old
    else fp.pads
  let git2 :=
    if G.remove_adhesive_for_dnp then restore_two L.fadhes L.badhes ad.1 ad.2 0 fp.gitems
    else fp.gitems
  { fp with pads := pads2, gitems := git2 }

def paste_restore_list (G : Globals) (L : LayerIds) (ch : String → Option Component) :
    List Footprint → List (List (List Nat)) → List (List Nat × List Nat) →
    List Footprint
  | [], _, _ => []
  | fp :: rest, ols, ads =>
    if dnp_selected ch fp then
      paste_restore_fp G L fp (ols.headD []) (ads.headD ([], [])) ::
        paste_restore_list G L ch rest ols.tail ads.tail
    else fp :: paste_restore_list G L ch rest ols ads

def restore_paste_and_glue (G : Globals) (L : LayerIds)
    (ch : String → Option Component) (b : Board)
    (ols : List (List (List Nat))) (ads : List (List Nat × List Nat)) : Board :=
  ⟨paste_restore_list G L ch b.footprints ols ads⟩

def fab_fp (L : LayerIds) (fp : Footprint) : Footprint × List Nat × List Nat :=
  let r := move_two L.ffab L.bfab L.rescue 0 fp.gitems
  ({ fp with gitems := r.1 }, r.2.1, r.2.2)

def fab_list (L : LayerIds) (ch : String → Option Component) :
    List Footprint → List Footprint × List (List Nat × List Nat)
  | [] => ([], [])
  | fp :: rest =>
    let r := fab_list L ch rest
    if excluded_selected ch fp then
      let q := fab_fp L fp
      (q.1 :: r.1, (q.2.1, q.2.2) :: r.2)
    else (fp :: r.1, r.2)

def remove_fab (L : LayerIds) (ch : String → Option Component) (b : Board) :
    Board × List (List Nat × List Nat) :=
  let r := fab_list L ch b.footprints
  (⟨r.1⟩, r.2)

def fab_restore_list (L : LayerIds) (ch : String → Option Component) :
    List Footprint → List (List Nat × List Nat) → List Footprint
  | [], _ => []
  | fp :: rest, recs =>
    if excluded_selected ch fp then
      let rc := recs.headD ([], [])
      { fp with gitems := restore_two L.ffab L.bfab rc.1 rc.2 0 fp.gitems } ::
        fab_restore_list L ch rest recs.tail
    else fp :: fab_restore_list L ch rest recs

def restore_fab (L : LayerIds) (ch : String → Option Component) (b : Board)
    (recs : List (List Nat × List Nat)) : Board :=
  ⟨fab_restore_list L ch b.footprints recs⟩

/-! ## 3D model removal, rename undo, restore and highlight
(out_base.py 499-562, 654-711) -/

/-- `remove_3D_models` over the footprint list: a known included-but-not-fitted
component has all its models popped (stored in reverse, as popped from the
back); any other known component with a non-empty 3D-model field has its
models replaced, recording the `undo_3d_models_rep` entry. -/
def remove_3D_list (G : Globals) (ch : String → Option Component) :
    List Footprint →
    Except String (List Footprint × List (List Model3D) × List (String × List String))
  | [] => .ok ([], [], [])
  | fp :: rest =>
    match ch fp.ref with
    | some c =>
      if c.included && !c.fitted then do
        let r ← remove_3D_list G ch rest
        .ok ({ fp with models := [] } :: r.1, fp.models.reverse :: r.2.1, r.2.2)
      else
        let nm := get_field_value c G.field_3D_model
        if nm ≠ "" then do
          let q ← replace_3D_models fp.models nm c
          let r ← remove_3D_list G ch rest
          .ok ({ fp with models := q.1 } :: r.1, r.2.1, (c.ref, q.2) :: r.2.2)
        else do
          let r ← remove_3D_list G ch rest
          .ok (fp :: r.1, r.2.1, r.2.2)
    | none => do
      let r ← remove_3D_list G ch rest
      .ok (fp :: r.1, r.2.1, r.2.2)

def remove_3D_models (G : Globals) (ch : String → Option Component) (b : Board) :
    Except String (Board × List (List Model3D) × List (String × List String)) :=
  (remove_3D_list G ch b.footprints).map (fun r => (⟨r.1⟩, r.2.1, r.2.2))

/-- Lookup in the `undo_3d_models_rep` dict: assignment overwrites, so the
last entry for a reference wins. -/
def lookup_rep (reps : List (String × List String)) (r : String) :
    Option (List String) :=
  (reps.reverse.find? (fun e => e.1 = r)).map (fun e => e.2)

/-- The per-footprint body of `undo_3d_models_rename`: the models are popped
from the back (reverse order), each filename renamed through the
`undo_3d_models` dict is restored, then a non-empty `undo_3d_models_rep`
record overwrites the i-th popped model's filename with its i-th entry, and
the models are pushed back to the front (restoring the original order). -/
def rename_models_fp (undoD : List (String × String))
    (replaced : Option (List String)) (models : List Model3D) : List Model3D :=
  let ml := models.reverse
  (ml.enum.map (fun p =>
    let m1 :=
      match undoD.reverse.find? (fun e => e.1 = p.2.filename) with
      | some e => { p.2 with filename := e.2 }
      | none => p.2
    match replaced with
    | some rl => if rl ≠ [] then { m1 with filename := rl.getD p.1 m1.filename } else m1
    | none => m1)).reverse

def undo_3d_models_rename (undoD : List (String × String))
    (reps : List (String × List String)) (b : Board) : Board :=
  ⟨b.footprints.map (fun fp =>
    { fp with models := rename_models_fp undoD (lookup_rep reps fp.ref) fp.models })⟩

/-- The removal-undo walk of `restore_3D_models`: the removed model lists are
popped in board order for the included-but-not-fitted components and pushed
back to the front of the (empty) model lists. -/
def restore_3D_list (ch : String → Option Component) :
    List Footprint → List (List Model3D) → List Footprint
  | [], _ => []
  | fp :: rest, rems =>
    if dnp_selected ch fp then
      { fp with models := (rems.headD []).reverse ++ fp.models } ::
        restore_3D_list ch rest rems.tail
    else fp :: restore_3D_list ch rest rems

def restore_3D_models (ch : String → Option Component) (b : Board)
    (rems : List (List Model3D)) (reps : List (String × List String))
    (undoD : List (String × String)) : Board :=
  let b2 := undo_3d_models_rename undoD reps b
  ⟨restore_3D_list ch b2.footprints rems⟩

/-- `highlight_3D_models` (geometry elided): pushes one highlight model to
the back of every highlighted footprint's model list and records the
highlight set (`if not highlight: return` keeps the state unset for `None`
and for an empty list). -/
def highlight_3D_models (hl : Option (List String)) (hfile : String)
    (b : Board) : Board × Option (List String) :=
  match hl with
  | none => (b, none)
  | some refsL =>
    if refsL.isEmpty then (b, none)
    else
      (⟨b.footprints.map (fun fp =>
        if fp.ref ∈ refsL then { fp with models := fp.models ++ [⟨hfile⟩] } else fp)⟩,
        some refsL)

/-- `unhighlight_3D_models`: pops one model from the back of every
highlighted footprint. -/
def unhighlight_3D_models (st : Option (List String)) (b : Board) : Board :=
  match st with
  | none => b
  | some refsL =>
    if refsL.isEmpty then b
    else ⟨b.footprints.map (fun fp =>
      if fp.ref ∈ refsL then { fp with models := fp.models.dropLast } else fp)⟩

/-! ## `filter_pcb_components` / `unfilter_pcb_components`
(out_base.py 713-745) -/

/-- The undo state the filter pass leaves on the `VariantOptions` instance. -/
structure PcbUndo where
  cross_f : List Bool
  cross_b : List Bool
  old_layers : List (List (List Nat))
  adhes : List (List Nat × List Nat)
  fab : List (List Nat × List Nat)
  rem_models : List (List Model3D)
  undo_rep : List (String × List String)
  undo_models : List (String × String)
  highlighted : Option (List String)
deriving Repr, DecidableEq

def emptyUndo : PcbUndo := ⟨[], [], [], [], [], [], [], [], none⟩

/-- `filter_pcb_components`: nothing happens without a component list;
otherwise the 2D passes (cross, paste/adhesive, fab when `hide_excluded`)
and then the 3D passes (variant aspect disable, model removal/replacement,
highlight) run in order.  The boolean mirrors the Python return value. -/
def filter_pcb_components (G : Globals) (L : LayerIds) (vname : String)
    (mv : String → Bool) (comps : List Component) (hide_excluded : Bool)
    (do_3D do_2D : Bool) (highlight : Option (List String)) (hfile : String)
    (b : Board) : Except String (Board × PcbUndo × Bool) :=
  if comps.isEmpty then .ok (b, emptyUndo, false)
  else
    let ch := refs_hash comps
    let step2D :=
      if do_2D then
        let c := cross_modules G L ch b
        let p := remove_paste_and_glue G L ch c.1
        let f :=
          if hide_excluded then remove_fab L ch p.1
          else (p.1, [])
        (f.1, c.2.1, c.2.2, p.2.1, p.2.2.1, f.2)
      else (b, [], [], [], [], [])
    let b1 := step2D.1
    if do_3D then do
      let b2 := apply_3D_variant_aspect vname mv false b1
      let r ← remove_3D_models G ch b2
      let h := highlight_3D_models highlight hfile r.1
      .ok (h.1, ⟨step2D.2.1, step2D.2.2.1, step2D.2.2.2.1, step2D.2.2.2.2.1,
        step2D.2.2.2.2.2, r.2.1, r.2.2, [], h.2⟩, true)
    else
      .ok (b1, ⟨step2D.2.1, step2D.2.2.1, step2D.2.2.2.1, step2D.2.2.2.2.1,
        step2D.2.2.2.2.2, [], [], [], none⟩, true)

/-- `unfilter_pcb_components`: the 2D restores (uncross, paste/adhesive, fab
when `hide_excluded`) and then the 3D restores (model restore including the
rename undo, variant aspect enable, unhighlight) run in order. -/
def unfilter_pcb_components (G : Globals) (L : LayerIds) (vname : String)
    (mv : String → Bool) (comps : List Component) (hide_excluded : Bool)
    (do_3D do_2D : Bool) (u : PcbUndo) (b : Board) : Board :=
  if comps.isEmpty then b
  else
    let ch := refs_hash comps
    let b1 :=
      if do_2D then
        let c := uncross_modules G ch b u.cross_f u.cross_b
        let p := restore_paste_and_glue G L ch c u.old_layers u.adhes
        if hide_excluded then restore_fab L ch p u.fab else p
      else b
    if do_3D then
      let b2 := restore_3D_models ch b1 u.rem_models u.undo_rep u.undo_models
      let b3 := apply_3D_variant_aspect vname mv true b2
      unhighlight_3D_models u.highlighted b3
    else b1

/-! ## Theorems -/

/-- The reset of the fitted/included flags and a field-only pre-transform
act on disjoint parts of a component, hence commute. -/
theorem reset_pre_transform_comm
    (tr : List (String × String) → List (String × String))
    (comps : List Component) :
    apply_pre_transform tr (reset_filters comps) =
      reset_filters (apply_pre_transform tr comps) := by
  simp only [apply_pre_transform, reset_filters, List.map_map]
  rfl

/-- C1: the resolve pipeline of `VariantOptions.run` produces, for every
component list, exactly the result of the composition transform → reset →
DNF → variant (the code performs the reset before the transform, but the two
stages commute because the transform rewrites fields only), and no other
order: swapping the transform past the DNF filter, the DNF filter past the
variant, or the reset past the DNF filter each changes the result on some
input. -/
theorem C1_resolve_pipeline_order :
    (∀ tr dnf v comps, variant_resolve tr dnf (some v) comps =
      apply_variant v (apply_fitted_filter dnf
        (reset_filters (apply_pre_transform tr comps)))) ∧
    (∀ tr dnf comps, variant_resolve tr dnf none comps =
      apply_fitted_filter dnf (reset_filters (apply_pre_transform tr comps))) ∧
    (∃ tr dnf comps,
      apply_fitted_filter dnf (reset_filters (apply_pre_transform tr comps)) ≠
      apply_pre_transform tr (apply_fitted_filter dnf (reset_filters comps))) ∧
    (∃ dnf v comps,
      apply_variant v (apply_fitted_filter dnf comps) ≠
      apply_fitted_filter dnf (apply_variant v comps)) ∧
    (∃ dnf comps,
      apply_fitted_filter dnf (reset_filters comps) ≠
      reset_filters (apply_fitted_filter dnf comps)) := by
  refine ⟨?_, ?_, ?_, ?_, ?_⟩
  · intro tr dnf v comps
    simp [variant_resolve, reset_pre_transform_comm]
  · intro tr dnf comps
    simp [variant_resolve, reset_pre_transform_comm]
  · exact ⟨fun _ => [("k", "v")], fun c => !c.fields.isEmpty,
      [⟨"R1", true, true, []⟩], by decide⟩
  · exact ⟨fun _ => true, fun c => (true, c.fitted),
      [⟨"R1", true, true, []⟩], by decide⟩
  · exact ⟨fun _ => true, [⟨"R1", true, true, []⟩], by decide⟩

/-- C5: `set_scaling` uses an explicit non-zero scale unchanged; a zero scale
computes the autoscale `min(paper_w/w, paper_h/h)` over the board bounding
box (paper converted to internal units), which keeps both scaled dimensions
within the paper with at least one exactly at its bound. -/
theorem C5_set_scaling_autoscale (scaling paper_w paper_h w h : ℚ)
    (hw : 0 < w) (hh : 0 < h) :
    (scaling ≠ 0 → set_scaling scaling paper_w paper_h w h = scaling) ∧
    (scaling = 0 →
      set_scaling scaling paper_w paper_h w h =
        min (fromMM paper_w / w) (fromMM paper_h / h) ∧
      set_scaling scaling paper_w paper_h w h * w ≤ fromMM paper_w ∧
      set_scaling scaling paper_w paper_h w h * h ≤ fromMM paper_h ∧
      (set_scaling scaling paper_w paper_h w h * w = fromMM paper_w ∨
       set_scaling scaling paper_w paper_h w h * h = fromMM paper_h)) := by
  refine ⟨fun hs => by simp [set_scaling, hs], fun hs => ?_⟩
  subst hs
  have hs0 : set_scaling 0 paper_w paper_h w h =
      min (fromMM paper_w / w) (fromMM paper_h / h) := by simp [set_scaling]
  refine ⟨hs0, ?_, ?_, ?_⟩ <;> rw [hs0]
  · calc min (fromMM paper_w / w) (fromMM paper_h / h) * w
        ≤ fromMM paper_w / w * w :=
          mul_le_mul_of_nonneg_right (min_le_left _ _) hw.le
      _ = fromMM paper_w := div_mul_cancel₀ _ (ne_of_gt hw)
  · calc min (fromMM paper_w / w) (fromMM paper_h / h) * h
        ≤ fromMM paper_h / h * h :=
          mul_le_mul_of_nonneg_right (min_le_right _ _) hh.le
      _ = fromMM paper_h := div_mul_cancel₀ _ (ne_of_gt hh)
  · rcases min_choice (fromMM paper_w / w) (fromMM paper_h / h) with hmin | hmin
    · left
      rw [hmin]
      exact div_mul_cancel₀ _ (ne_of_gt hw)
    · right
      rw [hmin]
      exact div_mul_cancel₀ _ (ne_of_gt hh)

/-- Witness for C5 at a concrete page: paper 3mm×1mm (in internal units
3000000×1000000), board 2×1 internal units. -/
theorem C5_set_scaling_autoscale_witness :
    set_scaling 0 3 1 2 1 = min (fromMM 3 / 2) (fromMM 1 / 1) ∧
    set_scaling 0 3 1 2 1 * 2 ≤ fromMM 3 ∧
    set_scaling 0 3 1 2 1 * 1 ≤ fromMM 1 ∧
    (set_scaling 0 3 1 2 1 * 2 = fromMM 3 ∨ set_scaling 0 3 1 2 1 * 1 = fromMM 1) :=
  (C5_set_scaling_autoscale 0 3 1 2 1 (by norm_num) (by norm_num)).2 rfl



/-! ### C7: color substitution in `load_svg` -/

theorem strdata_append (s t : String) : (s ++ t).data = s.data ++ t.data := rfl

theorem hexVal_hexDigitChar (d : Nat) (hd : d < 16) :
    hexVal (hexDigitChar d) = d := by
  interval_cases d <;> decide

theorem hexDigitChar_ne_hash (d : Nat) : hexDigitChar d ≠ '#' := by
  by_cases hd : d < 16
  · interval_cases d <;> decide
  · have hlen : ("0123456789ABCDEF".data).length ≤ d := by
      have h16 : ("0123456789ABCDEF".data).length = 16 := rfl
      omega
    unfold hexDigitChar
    rw [List.getD_eq_default _ _ hlen]
    decide

theorem hex2_parse (n : Nat) (hn : n ≤ 255) :
    16 * hexVal (hexDigitChar (n / 16)) + hexVal (hexDigitChar (n % 16)) = n := by
  rw [hexVal_hexDigitChar _ (by omega), hexVal_hexDigitChar _ (by omega)]
  omega

theorem to_gray_hex_avg (R G B : Nat) (hR : R ≤ 255) (hG : G ≤ 255) (hB : B ≤ 255) :
    to_gray_hex ("#" ++ hex2 R ++ hex2 G ++ hex2 B) =
      "#" ++ hex2 ((R + G + B) / 3) ++ hex2 ((R + G + B) / 3) ++
        hex2 ((R + G + B) / 3) := by
  have hdata : ("#" ++ hex2 R ++ hex2 G ++ hex2 B).data =
      '#' :: hexDigitChar (R / 16) :: hexDigitChar (R % 16) ::
      hexDigitChar (G / 16) :: hexDigitChar (G % 16) ::
      hexDigitChar (B / 16) :: hexDigitChar (B % 16) :: [] := rfl
  unfold to_gray_hex
  rw [hdata]
  rw [List.dropWhile_cons_of_pos (by decide),
    List.dropWhile_cons_of_neg (by simpa using hexDigitChar_ne_hash (R / 16))]
  simp only [List.getD_cons_zero, List.getD_cons_succ]
  rw [hex2_parse R hR, hex2_parse G hG, hex2_parse B hB]

/-- C7 (amended): for `colored_holes=false`, `load_svg` replaces the rendered
black through exactly the two textual substitution patterns with the
effective layer color — the configured color truncated to `#rrggbb` and, on a
monochrome page, first converted to its average gray — provided that
effective color is not itself black; and the gray of a color is the one whose
three channels all equal the (floor) average of its red, green and blue
channels. -/
theorem C7_load_svg_two_pattern_substitution :
    (∀ content color holes_color,
      strTake color 7 ≠ "#000000" →
      load_svg content color false holes_color false =
        pyReplace (pyReplace content "#000000" (strTake color 7))
          "stroke:rgb(0%,0%,0%)" ("stroke:" ++ strTake color 7)) ∧
    (∀ content color holes_color,
      to_gray_hex (strTake color 7) ≠ "#000000" →
      load_svg content color false holes_color true =
        pyReplace (pyReplace content "#000000" (to_gray_hex (strTake color 7)))
          "stroke:rgb(0%,0%,0%)" ("stroke:" ++ to_gray_hex (strTake color 7))) ∧
    (∀ R G B, R ≤ 255 → G ≤ 255 → B ≤ 255 →
      to_gray_hex ("#" ++ hex2 R ++ hex2 G ++ hex2 B) =
        "#" ++ hex2 ((R + G + B) / 3) ++ hex2 ((R + G + B) / 3) ++
          hex2 ((R + G + B) / 3)) := by
  refine ⟨?_, ?_, fun R G B hR hG hB => to_gray_hex_avg R G B hR hG hB⟩
  · intro content color holes_color h
    simp [load_svg, h]
  · intro content color holes_color h
    simp [load_svg, h]

/-- Witness for C7 at a concrete page: a red layer on a color page, a red
layer on a monochrome page and the gray average of pure red. -/
theorem C7_load_svg_two_pattern_substitution_witness :
    load_svg "a #000000 stroke:rgb(0%,0%,0%)" "#FF0000" false "#000000" false =
      pyReplace (pyReplace "a #000000 stroke:rgb(0%,0%,0%)" "#000000" (strTake "#FF0000" 7))
        "stroke:rgb(0%,0%,0%)" ("stroke:" ++ strTake "#FF0000" 7) ∧
    load_svg "a #000000 stroke:rgb(0%,0%,0%)" "#FF0000" false "#000000" true =
      pyReplace (pyReplace "a #000000 stroke:rgb(0%,0%,0%)" "#000000"
          (to_gray_hex (strTake "#FF0000" 7)))
        "stroke:rgb(0%,0%,0%)" ("stroke:" ++ to_gray_hex (strTake "#FF0000" 7)) ∧
    to_gray_hex ("#" ++ hex2 255 ++ hex2 0 ++ hex2 0) =
      "#" ++ hex2 ((255 + 0 + 0) / 3) ++ hex2 ((255 + 0 + 0) / 3) ++
        hex2 ((255 + 0 + 0) / 3) :=
  ⟨C7_load_svg_two_pattern_substitution.1 "a #000000 stroke:rgb(0%,0%,0%)" "#FF0000"
      "#000000" (by decide),
   C7_load_svg_two_pattern_substitution.2.1 "a #000000 stroke:rgb(0%,0%,0%)" "#FF0000"
      "#000000" (by decide),
   C7_load_svg_two_pattern_substitution.2.2 255 0 0 (by decide) (by decide) (by decide)⟩

/-- C7 counterexample: the configured color `#000001` is not black, but on a
monochrome page it grays to black, so `load_svg` leaves the print-tool black
pattern untouched while the claimed two-pattern substitution with the grayed
color would rewrite it to `stroke:#000000`. -/
theorem C7_counterexample :
    to_gray_hex (strTake "#000001" 7) = "#000000" ∧
    load_svg "stroke:rgb(0%,0%,0%)" "#000001" false "#000000" true =
      "stroke:rgb(0%,0%,0%)" ∧
    pyReplace (pyReplace "stroke:rgb(0%,0%,0%)" "#000000"
        (to_gray_hex (strTake "#000001" 7)))
      "stroke:rgb(0%,0%,0%)" ("stroke:" ++ to_gray_hex (strTake "#000001" 7)) =
      "stroke:#000000" ∧
    ("stroke:#000000" : String) ≠ "stroke:rgb(0%,0%,0%)" :=
  ⟨by decide, by decide, by decide, by decide⟩

/-! ### C4: slot masking by filename sentinel -/

theorem strDropRight_append (s t : String) :
    strDropRight (s ++ t) t.length = s := by
  cases s with
  | mk sd =>
    cases t with
    | mk td =>
      simp only [strDropRight, strdata_append, String.length, List.length_append]
      rw [Nat.add_sub_cancel, List.take_left]

/-- The per-index behavior of `apply_list_of_3D_models`. -/
theorem apply_list_getElem? (enable : Bool) (slots : List String)
    (ms : List Model3D) (i : Nat) :
    (apply_list_of_3D_models enable slots ms)[i]? =
      (ms[i]?).map (fun m =>
        if (i + 1) ∈ slotsNat slots then m
        else if enable then
          { m with filename := strDropRight m.filename DISABLE_3D_MODEL_TEXT.length }
        else { m with filename := m.filename ++ DISABLE_3D_MODEL_TEXT }) := by
  simp only [apply_list_of_3D_models, List.getElem?_map, List.getElem?_enum]
  cases ms[i]? <;> rfl

theorem apply_list_length (enable : Bool) (slots : List String)
    (ms : List Model3D) :
    (apply_list_of_3D_models enable slots ms).length = ms.length := by
  simp [apply_list_of_3D_models]

/-- Disabling then enabling the same slot list restores every filename. -/
theorem apply_list_disable_enable (slots : List String) (ms : List Model3D) :
    apply_list_of_3D_models true slots (apply_list_of_3D_models false slots ms) = ms := by
  apply List.ext_getElem?
  intro i
  rw [apply_list_getElem?, apply_list_getElem?]
  cases hms : ms[i]? with
  | none => rfl
  | some m =>
    cases m with
    | mk fn =>
      by_cases hmem : (i + 1) ∈ slotsNat slots
      · simp [hmem]
      · simp [hmem, strDropRight_append]

/-- C4 (amended): disable mode appends the sentinel to exactly the models
whose 1-based index is not in the slot list and enable mode drops that many
trailing characters from the same models; disabling then enabling restores
every filename exactly; and if no original filename already ends with the
sentinel, then after a disable pass no filename ends with two copies of it.
(The converse order, enabling first, is not restoring: see the
counterexample.) -/
theorem C4_slot_masking_amended :
    (∀ slots ms i, (apply_list_of_3D_models false slots ms)[i]? =
      (ms[i]?).map (fun m =>
        if (i + 1) ∈ slotsNat slots then m
        else { m with filename := m.filename ++ DISABLE_3D_MODEL_TEXT })) ∧
    (∀ slots ms i, (apply_list_of_3D_models true slots ms)[i]? =
      (ms[i]?).map (fun m =>
        if (i + 1) ∈ slotsNat slots then m
        else { m with filename := strDropRight m.filename DISABLE_3D_MODEL_TEXT.length })) ∧
    (∀ slots ms,
      apply_list_of_3D_models true slots (apply_list_of_3D_models false slots ms) = ms) ∧
    (∀ slots ms, (∀ m ∈ ms, ¬ DISABLE_3D_MODEL_TEXT.data <:+ m.filename.data) →
      ∀ m2 ∈ apply_list_of_3D_models false slots ms,
        ¬ (DISABLE_3D_MODEL_TEXT.data ++ DISABLE_3D_MODEL_TEXT.data) <:+ m2.filename.data) := by
  refine ⟨?_, ?_, ?_, ?_⟩
  · intro slots ms i
    rw [apply_list_getElem? false slots ms i]
    rfl
  · intro slots ms i
    rw [apply_list_getElem? true slots ms i]
    rfl
  · exact apply_list_disable_enable
  · intro slots ms hclean m2 hm2
    simp only [apply_list_of_3D_models, List.mem_map] at hm2
    obtain ⟨p, hp, hfp⟩ := hm2
    have hpm : p.2 ∈ ms := List.getElem?_mem (List.mem_enum_iff_getElem?.mp hp)
    have hcl := hclean p.2 hpm
    by_cases hmem : (p.1 + 1) ∈ slotsNat slots
    · rw [if_pos hmem] at hfp
      subst hfp
      intro hsuf
      exact hcl ((List.suffix_append DISABLE_3D_MODEL_TEXT.data
        DISABLE_3D_MODEL_TEXT.data).trans hsuf)
    · rw [if_neg hmem] at hfp
      simp only [Bool.false_eq_true, if_false] at hfp
      subst hfp
      intro hsuf
      apply hcl
      obtain ⟨u, hu⟩ := hsuf
      refine ⟨u, ?_⟩
      have happ : (p.2.filename ++ DISABLE_3D_MODEL_TEXT).data =
          p.2.filename.data ++ DISABLE_3D_MODEL_TEXT.data := strdata_append _ _
      rw [show ({ p.2 with filename := p.2.filename ++ DISABLE_3D_MODEL_TEXT} :
        Model3D).filename = p.2.filename ++ DISABLE_3D_MODEL_TEXT from rfl, happ,
        ← List.append_assoc] at hu
      exact List.append_cancel_right hu

/-- Witness for C4's conditional conjunct at a concrete model list. -/
theorem C4_slot_masking_amended_witness :
    (∀ m ∈ [Model3D.mk "a.wrl"], ¬ DISABLE_3D_MODEL_TEXT.data <:+ m.filename.data) ∧
    (∀ m2 ∈ apply_list_of_3D_models false ["2"] [Model3D.mk "a.wrl"],
      ¬ (DISABLE_3D_MODEL_TEXT.data ++ DISABLE_3D_MODEL_TEXT.data) <:+ m2.filename.data) :=
  ⟨by decide, C4_slot_masking_amended.2.2.2 ["2"] [Model3D.mk "a.wrl"] (by decide)⟩

/-- C4 counterexample: enabling before disabling does not restore a filename
that does not already end with the sentinel — the claim's "or vice versa"
fails. -/
theorem C4_counterexample :
    apply_list_of_3D_models false []
      (apply_list_of_3D_models true [] [Model3D.mk "a.wrl"]) ≠
      [Model3D.mk "a.wrl"] := by decide

/-! ### C6: 3D model replacement from the 3D-model field -/

/-- C6 (amended): with more than one model attached, a count mismatch between
the models and the comma-separated replacements raises the fatal
configuration error naming the component and both counts; with matching
counts the traversal is over the popped (reversed) model list, so the model
at position `i` (in original order) receives replacement number
`n - 1 - i` and the undo record holds the original filenames in reversed
order; with at most one model no error is possible and the whole field value
is the single replacement. -/
theorem C6_replace_3D_models_amended :
    (∀ ms nm (c : Component), ms.length > 1 →
      ms.length ≠ (pySplitComma nm).length →
      replace_3D_models ms nm c = .error ("Found " ++ toString ms.length ++
        " models in component " ++ c.ref ++ ", but " ++
        toString (pySplitComma nm).length ++ " replacements provided")) ∧
    (∀ ms nm (c : Component) i, ms.length > 1 →
      ms.length = (pySplitComma nm).length → i < ms.length →
      ∃ res rec, replace_3D_models ms nm c = .ok (res, rec) ∧
        res[i]? = (ms[i]?).map (fun m =>
          { m with filename := (pySplitComma nm).getD (ms.length - 1 - i) "" }) ∧
        rec[i]? = (ms[ms.length - 1 - i]?).map (fun m => m.filename)) ∧
    (∀ ms nm (c : Component), ms.length ≤ 1 →
      replace_3D_models ms nm c =
        .ok (ms.map (fun m => { m with filename := nm }),
          ms.map (fun m => m.filename))) := by
  refine ⟨?_, ?_, ?_⟩
  · intro ms nm c h1 h2
    simp only [replace_3D_models, List.length_reverse]
    rw [if_pos h1, if_pos h2]
    rfl
  · intro ms nm c i h1 heq hi
    refine ⟨(ms.reverse.zipWith (fun m r => { m with filename := r })
        (pySplitComma nm)).reverse, ms.reverse.map (fun m => m.filename),
      ?_, ?_, ?_⟩
    · simp only [replace_3D_models, List.length_reverse]
      rw [if_pos h1, if_neg (by omega)]
      rfl
    · have hlz : (ms.reverse.zipWith
          (fun m r => ({ m with filename := r } : Model3D))
          (pySplitComma nm)).length = ms.length := by
        simp [List.length_zipWith, ← heq]
      rw [List.getElem?_reverse (by omega), hlz, List.getElem?_zipWith',
        List.getElem?_reverse (by omega)]
      have hms : ms.length - 1 - (ms.length - 1 - i) = i := by omega
      rw [hms]
      have hrep : (pySplitComma nm)[ms.length - 1 - i]? =
          some ((pySplitComma nm).getD (ms.length - 1 - i) "") := by
        rw [List.getD_eq_getElem?_getD, List.getElem?_eq_getElem (by omega)]
        rfl
      rw [hrep]
      cases ms[i]? <;> rfl
    · rw [List.getElem?_map, List.getElem?_reverse (by omega)]
  · intro ms nm c h
    cases ms with
    | nil => rfl
    | cons a t =>
      cases t with
      | nil => rfl
      | cons b t2 => simp at h

/-- Witness for C6 at concrete inputs: two models with two replacements (and
the subsingleton case). -/
theorem C6_replace_3D_models_amended_witness :
    (∃ res rec,
      replace_3D_models [Model3D.mk "x", Model3D.mk "y"] "a,b"
        (Component.mk "R1" true true []) = .ok (res, rec) ∧
      res[0]? = ([Model3D.mk "x", Model3D.mk "y"][0]?).map (fun m =>
        { m with filename := (pySplitComma "a,b").getD (2 - 1 - 0) "" }) ∧
      rec[0]? = ([Model3D.mk "x", Model3D.mk "y"][2 - 1 - 0]?).map
        (fun m => m.filename)) ∧
    replace_3D_models [Model3D.mk "x"] "a,b" (Component.mk "R1" true true []) =
      .ok ([Model3D.mk "a,b"], ["x"]) := by
  constructor
  · have h := C6_replace_3D_models_amended.2.1 [Model3D.mk "x", Model3D.mk "y"]
      "a,b" (Component.mk "R1" true true []) 0 (by decide) (by decide) (by decide)
    simpa using h
  · have h := C6_replace_3D_models_amended.2.2 [Model3D.mk "x"] "a,b"
      (Component.mk "R1" true true []) (by decide)
    simpa using h

/-- C6 counterexample: a single model with two comma-separated replacements is
a count mismatch yet raises no error (the whole value becomes the filename);
and with two models the first model receives the second replacement, not the
first. -/
theorem C6_counterexample :
    replace_3D_models [Model3D.mk "x"] "a,b" (Component.mk "R1" true true []) =
      .ok ([Model3D.mk "a,b"], ["x"]) ∧
    (pySplitComma "a,b").length = 2 ∧
    replace_3D_models [Model3D.mk "x", Model3D.mk "y"] "a,b"
      (Component.mk "R1" true true []) =
      .ok ([Model3D.mk "b", Model3D.mk "a"], ["y", "x"]) ∧
    Model3D.mk "b" ≠ Model3D.mk "a" :=
  ⟨rfl, by decide, rfl, by decide⟩

/-! ### C3 and C10: the `apply_3D_variant_aspect` text scan -/

/-- The state update a non-stopping item performs on the scan's `default`
record and `slots` variable. -/
def scanUpd (gi : GItem) (d : Option Unit) (l : List String) :
    Option Unit × List String :=
  if gi.cls = "MTEXT" then
    match parseNamed (pyStrip gi.text) with
    | some (var, g2) =>
      if var = "_default_" then (some (), splitSlots g2) else (d, splitSlots g2)
    | none =>
      match parseTagged (pyStrip gi.text) with
      | some (_, g2) => (d, splitSlots g2)
      | none => (d, l)
  else (d, l)

/-- One step of the scan: an explicit rule stops it with its own slot list,
anything else (a `_default_` rule included) merely updates the state. -/
theorem scanAspect_cons (vname : String) (mv : String → Bool) (gi : GItem)
    (rest : List GItem) (d : Option Unit) (l : List String) :
    scanAspect vname mv (gi :: rest) d l =
      match explicitMatch vname mv gi with
      | some s => some s
      | none => scanAspect vname mv rest (scanUpd gi d l).1 (scanUpd gi d l).2 := by
  by_cases hcls : gi.cls = "MTEXT"
  · cases hn : parseNamed (pyStrip gi.text) with
    | some p =>
      obtain ⟨var, g2⟩ := p
      by_cases hdef : var = "_default_"
      · simp [scanAspect, explicitMatch, scanUpd, hcls, hn, hdef]
      · by_cases hv : var = vname
        · subst hv
          simp [scanAspect, explicitMatch, scanUpd, hcls, hn, hdef]
        · simp [scanAspect, explicitMatch, scanUpd, hcls, hn, hdef, hv]
    | none =>
      cases ht : parseTagged (pyStrip gi.text) with
      | some p =>
        obtain ⟨var, g2⟩ := p
        by_cases hmv : mv var = true
        · simp [scanAspect, explicitMatch, scanUpd, hcls, hn, ht, hmv]
        · simp [scanAspect, explicitMatch, scanUpd, hcls, hn, ht, hmv]
      | none => simp [scanAspect, explicitMatch, scanUpd, hcls, hn, ht]
  · simp [scanAspect, explicitMatch, scanUpd, hcls]

/-- C10: at most one explicit slot-masking rule is applied per footprint —
the scan returns the slot list of the first text with an explicit rule
(named-variant equal to the current variant, `_default_` excepted, or a
variant tag accepted by `matches_variant`), whatever follows it; texts
before it, `_default_` rules included, only update the scan state; and that
slot list is what `apply_3D_variant_aspect` applies to the footprint's
models. -/
theorem C10_first_explicit_rule_applies (vname : String) (mv : String → Bool)
    (pre : List GItem) (gi : GItem) (post : List GItem) (slots : List String)
    (hpre : ∀ x ∈ pre, explicitMatch vname mv x = none)
    (hgi : explicitMatch vname mv gi = some slots) :
    (∀ d l, scanAspect vname mv (pre ++ gi :: post) d l = some slots) ∧
    (∀ enable fp, fp.gitems = pre ++ gi :: post →
      aspect_fp vname mv enable fp =
        { fp with models := apply_list_of_3D_models enable slots fp.models }) := by
  have hscan : ∀ (p : List GItem), (∀ x ∈ p, explicitMatch vname mv x = none) →
      ∀ d l, scanAspect vname mv (p ++ gi :: post) d l = some slots := by
    intro p
    induction p with
    | nil =>
      intro _ d l
      rw [List.nil_append, scanAspect_cons, hgi]
    | cons a t ih =>
      intro h d l
      rw [List.cons_append, scanAspect_cons, h a (List.mem_cons_self a t)]
      exact ih (fun x hx => h x (List.mem_cons_of_mem a hx)) _ _
  refine ⟨hscan pre hpre, ?_⟩
  intro enable fp hfp
  unfold aspect_fp
  rw [hfp, hscan pre hpre none []]

/-- Witness for C10: a `_default_` rule, then the matching explicit rule,
then a later explicit rule that is ignored. -/
theorem C10_first_explicit_rule_applies_witness :
    scanAspect "v" (fun _ => false)
      ([GItem.mk "MTEXT" 0 "%_default_:1%"] ++
        GItem.mk "MTEXT" 0 "%v:3%" :: [GItem.mk "MTEXT" 0 "%v:4%"]) none [] =
      some ["3"] :=
  (C10_first_explicit_rule_applies "v" (fun _ => false)
    [GItem.mk "MTEXT" 0 "%_default_:1%"] (GItem.mk "MTEXT" 0 "%v:3%")
    [GItem.mk "MTEXT" 0 "%v:4%"] ["3"] (by decide) (by decide)).1 none []

/-- C3 (code bug, out_base.py 633): when no explicit rule matches, the code
applies the `slots` variable left over from the last matching text of the
loop instead of the recorded `default` — here a footprint with a
`_default_:1` rule followed by a non-matching `%x:2%` text gets the slot
list `["2"]` applied although the `_default_` rule's slot list is `["1"]`. -/
theorem C3_default_rule_bug :
    defaultRule [GItem.mk "MTEXT" 0 "%_default_:1%", GItem.mk "MTEXT" 0 "%x:2%"] =
      some ["1"] ∧
    (∀ gi ∈ [GItem.mk "MTEXT" 0 "%_default_:1%", GItem.mk "MTEXT" 0 "%x:2%"],
      explicitMatch "v" (fun _ => false) gi = none) ∧
    scanAspect "v" (fun _ => false)
      [GItem.mk "MTEXT" 0 "%_default_:1%", GItem.mk "MTEXT" 0 "%x:2%"] none [] =
      some ["2"] ∧
    (["2"] : List String) ≠ ["1"] :=
  ⟨rfl, by decide, rfl, by decide⟩

/-! ### C8: `included=false` means excluded everywhere downstream -/

/-- C8: a resolved component with `included=false` never appears in
`get_fitted_refs`, always appears in `get_not_fitted_refs` (whatever its
`fitted` flag), and on the board it is not selected by the
included-and-not-fitted 2D passes (no cross, no paste/adhesive removal)
while being selected by the hide-excluded fab removal. -/
theorem C8_included_false_is_excluded (G : Globals) (L : LayerIds)
    (comps : List Component) (c : Component) (hmem : c ∈ comps)
    (hinc : c.included = false)
    (hnodup : (comps.map (fun x => x.ref)).Nodup) :
    c.ref ∉ get_fitted_refs comps ∧
    c.ref ∈ get_not_fitted_refs comps ∧
    (∀ fp : Footprint, refs_hash comps fp.ref = some c →
      dnp_selected (refs_hash comps) fp = false ∧
      excluded_selected (refs_hash comps) fp = true ∧
      cross_list L (refs_hash comps) [fp] = ([fp], [], []) ∧
      paste_list G L (refs_hash comps) [fp] = ([fp], [], [], [])) := by
  have hne : comps.isEmpty = false := by
    cases comps with
    | nil => cases hmem
    | cons a t => rfl
  refine ⟨?_, ?_, ?_⟩
  · intro hin
    rw [get_fitted_refs, hne] at hin
    simp only [Bool.false_eq_true, if_false, List.mem_map, List.mem_filter] at hin
    obtain ⟨c2, ⟨hc2, hflags⟩, href⟩ := hin
    have : c2 = c := List.inj_on_of_nodup_map hnodup hc2 hmem href
    subst this
    rw [hinc] at hflags
    simp at hflags
  · rw [get_not_fitted_refs, hne]
    simp only [Bool.false_eq_true, if_false, List.mem_map, List.mem_filter]
    exact ⟨c, ⟨hmem, by simp [hinc]⟩, rfl⟩
  · intro fp hfp
    have hdnp : dnp_selected (refs_hash comps) fp = false := by
      simp [dnp_selected, hfp, hinc]
    refine ⟨hdnp, by simp [excluded_selected, hfp, hinc], ?_, ?_⟩
    · simp [cross_list, hdnp]
    · simp [paste_list, hdnp]

/-- Witness for C8 on a one-component, one-footprint board. -/
theorem C8_included_false_is_excluded_witness :
    ("C1" : String) ∉ get_fitted_refs [Component.mk "C1" true false []] ∧
    ("C1" : String) ∈ get_not_fitted_refs [Component.mk "C1" true false []] ∧
    dnp_selected (refs_hash [Component.mk "C1" true false []])
        (Footprint.mk "C1" [] [] []) = false ∧
    excluded_selected (refs_hash [Component.mk "C1" true false []])
        (Footprint.mk "C1" [] [] []) = true := by
  have h := C8_included_false_is_excluded (Globals.mk true true true "F")
    (LayerIds.mk 35 34 33 32 49 48 39 38 47 46 41)
    [Component.mk "C1" true false []] (Component.mk "C1" true false [])
    (by decide) rfl (by decide)
  have h3 := h.2.2 (Footprint.mk "C1" [] [] []) (by decide)
  exact ⟨h.1, h.2.1, h3.1, h3.2.1⟩

/-! ### C9: paste removal never leaves a pad with an empty layer set -/

/-- C9: with solder-paste removal enabled, every pad processed by
`remove_paste_and_glue` keeps a non-empty layer set; a pad whose layer set
would become empty receives exactly the front solder-mask layer (the back
one when it had no front paste) and contributes a warning naming the
component's reference. -/
theorem C9_remove_paste_never_empties_pads (G : Globals) (L : LayerIds)
    (fp : Footprint) (hpaste : G.remove_solder_paste_for_dnp = true) :
    (∀ p : Pad, (process_pad L p).1.layers ≠ []) ∧
    (∀ p : Pad, (process_pad L p).2 = true →
      (process_pad L p).1.layers =
        [if L.fpaste ∈ p.layers then L.fmask else L.bmask]) ∧
    (∀ p ∈ fp.pads, (process_pad L p).2 = true →
      wrongPasteWarning fp.ref ∈ (paste_fp G L fp).2.2.2) ∧
    (∀ p2 ∈ (paste_fp G L fp).1.pads, p2.layers ≠ []) := by
  have h1 : ∀ p : Pad, (process_pad L p).1.layers ≠ [] := by
    intro p
    unfold process_pad
    by_cases hlen : (p.layers.filter fun l => ¬(l = L.fpaste ∨ l = L.bpaste)).length = 0
    · simp only [hlen, if_pos]
      simp
    · simp only [hlen, if_neg, if_false]
      intro hc
      simp only [hc] at hlen
      simp at hlen
  refine ⟨h1, ?_, ?_, ?_⟩
  · intro p hflag
    simp only [process_pad] at hflag ⊢
    by_cases hlen : (p.layers.filter fun l => ¬(l = L.fpaste ∨ l = L.bpaste)).length = 0
    · rw [if_pos hlen]
      have hnil : (p.layers.filter fun l => ¬(l = L.fpaste ∨ l = L.bpaste)) = [] :=
        List.length_eq_zero.mp hlen
      rw [hnil]
      rfl
    · rw [if_neg hlen] at hflag
      cases hflag
  · intro p hp hflag
    simp only [paste_fp, hpaste, if_pos]
    have hmem2 : process_pad L p ∈ fp.pads.map (process_pad L) :=
      List.mem_map_of_mem (process_pad L) hp
    exact List.mem_map.mpr ⟨process_pad L p,
      List.mem_filter.mpr ⟨hmem2, hflag⟩, rfl⟩
  · intro p2 hp2
    simp only [paste_fp, hpaste, if_pos, List.map_map, List.mem_map] at hp2
    obtain ⟨p, _, hpeq⟩ := hp2
    rw [← hpeq]
    exact h1 p

/-- Witness for C9: a pad carrying only the front paste layer is rescued to
the front mask layer and warned about. -/
theorem C9_remove_paste_never_empties_pads_witness :
    ((process_pad (LayerIds.mk 35 34 33 32 49 48 39 38 47 46 41)
      (Pad.mk [35])).1.layers ≠ []) ∧
    wrongPasteWarning "R1" ∈
      (paste_fp (Globals.mk true true true "F")
        (LayerIds.mk 35 34 33 32 49 48 39 38 47 46 41)
        (Footprint.mk "R1" [] [Pad.mk [35]] [])).2.2.2 :=
  ⟨(C9_remove_paste_never_empties_pads (Globals.mk true true true "F")
      (LayerIds.mk 35 34 33 32 49 48 39 38 47 46 41)
      (Footprint.mk "R1" [] [Pad.mk [35]] []) rfl).1 (Pad.mk [35]),
   (C9_remove_paste_never_empties_pads (Globals.mk true true true "F")
      (LayerIds.mk 35 34 33 32 49 48 39 38 47 46 41)
      (Footprint.mk "R1" [] [Pad.mk [35]] []) rfl).2.2.1 (Pad.mk [35])
      (by decide) (by decide)⟩

/-! ### C2: helper lemmas for the filter/unfilter round trip -/

theorem move_two_bound_fst (la lb resc : Nat) :
    ∀ (j : Nat) (xs : List GItem) (x : Nat),
      x ∈ (move_two la lb resc j xs).2.1 → j ≤ x := by
  intro j xs
  induction xs generalizing j with
  | nil => intro x hx; cases hx
  | cons gi rest ih =>
    intro x hx
    simp only [move_two] at hx
    by_cases hla : gi.layer = la
    · simp only [hla, if_pos] at hx
      rcases List.mem_cons.mp hx with h | h
      · omega
      · have := ih (j + 1) x h
        omega
    · rw [if_neg hla] at hx
      by_cases hlb : gi.layer = lb
      · simp only [hlb, if_pos] at hx
        have := ih (j + 1) x hx
        omega
      · rw [if_neg hlb] at hx
        have := ih (j + 1) x hx
        omega

theorem move_two_bound_snd (la lb resc : Nat) :
    ∀ (j : Nat) (xs : List GItem) (x : Nat),
      x ∈ (move_two la lb resc j xs).2.2 → j ≤ x := by
  intro j xs
  induction xs generalizing j with
  | nil => intro x hx; cases hx
  | cons gi rest ih =>
    intro x hx
    simp only [move_two] at hx
    by_cases hla : gi.layer = la
    · simp only [hla, if_pos] at hx
      have := ih (j + 1) x hx
      omega
    · rw [if_neg hla] at hx
      by_cases hlb : gi.layer = lb
      · simp only [hlb, if_pos] at hx
        rcases List.mem_cons.mp hx with h | h
        · omega
        · have := ih (j + 1) x h
          omega
      · rw [if_neg hlb] at hx
        have := ih (j + 1) x hx
        omega

theorem restore_two_congr (la lb : Nat) (fa fa2 fb fb2 : List Nat) :
    ∀ (j : Nat) (xs : List GItem),
      (∀ k, j ≤ k → ((k ∈ fa) ↔ (k ∈ fa2))) →
      (∀ k, j ≤ k → ((k ∈ fb) ↔ (k ∈ fb2))) →
      restore_two la lb fa fb j xs = restore_two la lb fa2 fb2 j xs := by
  intro j xs
  induction xs generalizing j with
  | nil => intro _ _; rfl
  | cons gi rest ih =>
    intro ha hb
    simp only [restore_two]
    have ha0 := ha j (le_refl j)
    have hb0 := hb j (le_refl j)
    have htail := ih (j + 1) (fun k hk => ha k (by omega)) (fun k hk => hb k (by omega))
    rw [htail]
    congr 1
    by_cases h1 : j ∈ fa
    · rw [if_pos h1, if_pos (ha0.mp h1)]
      by_cases h2 : j ∈ fb
      · rw [if_pos h2, if_pos (hb0.mp h2)]
      · rw [if_neg h2, if_neg (fun hc => h2 (hb0.mpr hc))]
    · rw [if_neg h1, if_neg (fun hc => h1 (ha0.mpr hc))]
      by_cases h2 : j ∈ fb
      · rw [if_pos h2, if_pos (hb0.mp h2)]
      · rw [if_neg h2, if_neg (fun hc => h2 (hb0.mpr hc))]

theorem move_restore_two (la lb resc : Nat) :
    ∀ (j : Nat) (xs : List GItem),
      restore_two la lb (move_two la lb resc j xs).2.1
        (move_two la lb resc j xs).2.2 j (move_two la lb resc j xs).1 = xs := by
  intro j xs
  induction xs generalizing j with
  | nil => rfl
  | cons gi rest ih =>
    simp only [move_two]
    by_cases hla : gi.layer = la
    · simp only [hla, if_pos]
      simp only [restore_two, List.mem_cons, true_or, if_true]
      have hnb : j ∉ (move_two la lb resc (j + 1) rest).2.2 := fun hc => by
        have := move_two_bound_snd la lb resc (j + 1) rest j hc
        omega
      rw [if_neg hnb]
      have hcg : restore_two la lb (j :: (move_two la lb resc (j + 1) rest).2.1)
          (move_two la lb resc (j + 1) rest).2.2 (j + 1)
          (move_two la lb resc (j + 1) rest).1 =
          restore_two la lb (move_two la lb resc (j + 1) rest).2.1
            (move_two la lb resc (j + 1) rest).2.2 (j + 1)
            (move_two la lb resc (j + 1) rest).1 := by
        apply restore_two_congr
        · intro k hk
          simp only [List.mem_cons]
          constructor
          · rintro (h | h)
            · omega
            · exact h
          · intro h; exact Or.inr h
        · intro k _; rfl
      rw [hcg, ih (j + 1)]
      cases gi with
      | mk cls layer text =>
        simp only [GItem.mk.injEq] at hla ⊢
        simp_all
    · rw [if_neg hla]
      by_cases hlb : gi.layer = lb
      · simp only [hlb, if_pos]
        simp only [restore_two]
        have hnf : j ∉ (move_two la lb resc (j + 1) rest).2.1 := fun hc => by
          have := move_two_bound_fst la lb resc (j + 1) rest j hc
          omega
        rw [if_neg hnf, if_pos (List.mem_cons_self j _)]
        have hcg : restore_two la lb (move_two la lb resc (j + 1) rest).2.1
            (j :: (move_two la lb resc (j + 1) rest).2.2) (j + 1)
            (move_two la lb resc (j + 1) rest).1 =
            restore_two la lb (move_two la lb resc (j + 1) rest).2.1
              (move_two la lb resc (j + 1) rest).2.2 (j + 1)
              (move_two la lb resc (j + 1) rest).1 := by
          apply restore_two_congr
          · intro k _; rfl
          · intro k hk
            simp only [List.mem_cons]
            constructor
            · rintro (h | h)
              · omega
              · exact h
            · intro h; exact Or.inr h
        rw [hcg, ih (j + 1)]
        cases gi with
        | mk cls layer text =>
          simp only [GItem.mk.injEq] at hlb ⊢
          simp_all
      · rw [if_neg hlb]
        simp only [restore_two]
        have hnf : j ∉ (move_two la lb resc (j + 1) rest).2.1 := fun hc => by
          have := move_two_bound_fst la lb resc (j + 1) rest j hc
          omega
        have hnb : j ∉ (move_two la lb resc (j + 1) rest).2.2 := fun hc => by
          have := move_two_bound_snd la lb resc (j + 1) rest j hc
          omega
        rw [if_neg hnf, if_neg hnb, ih (j + 1)]

theorem move_two_neutral (la lb resc : Nat) :
    ∀ (j : Nat) (ys : List GItem),
      (∀ y ∈ ys, ¬y.layer = la ∧ ¬y.layer = lb) →
      move_two la lb resc j ys = (ys, [], []) := by
  intro j ys
  induction ys generalizing j with
  | nil => intro _; rfl
  | cons gi rest ih =>
    intro h
    have hgi := h gi (List.mem_cons_self gi rest)
    simp only [move_two, if_neg hgi.1, if_neg hgi.2]
    rw [ih (j + 1) (fun y hy => h y (List.mem_cons_of_mem gi hy))]

theorem move_two_append_neutral (la lb resc : Nat) :
    ∀ (j : Nat) (xs ys : List GItem),
      (∀ y ∈ ys, ¬y.layer = la ∧ ¬y.layer = lb) →
      move_two la lb resc j (xs ++ ys) =
        ((move_two la lb resc j xs).1 ++ ys,
          (move_two la lb resc j xs).2.1, (move_two la lb resc j xs).2.2) := by
  intro j xs
  induction xs generalizing j with
  | nil =>
    intro ys h
    simp only [List.nil_append]
    rw [move_two_neutral la lb resc j ys h]
    rfl
  | cons gi rest ih =>
    intro ys h
    simp only [List.cons_append, move_two, List.append_eq]
    rw [ih (j + 1) ys h]
    by_cases hla : gi.layer = la
    · simp [hla]
    · rw [if_neg hla, if_neg hla]
      by_cases hlb : gi.layer = lb
      · simp [hlb]
      · simp [hlb]

theorem move_two_length (la lb resc : Nat) :
    ∀ (j : Nat) (xs : List GItem),
      (move_two la lb resc j xs).1.length = xs.length := by
  intro j xs
  induction xs generalizing j with
  | nil => rfl
  | cons gi rest ih =>
    simp only [move_two]
    by_cases hla : gi.layer = la
    · simp only [hla, if_pos, List.length_cons, ih (j + 1)]
    · rw [if_neg hla]
      by_cases hlb : gi.layer = lb
      · simp only [hlb, if_pos, List.length_cons, ih (j + 1)]
      · rw [if_neg hlb]
        simp only [List.length_cons, ih (j + 1)]

/-- The class/text view of a graphical item: the aspect scan reads nothing
else. -/
def clsText (gi : GItem) : String × String := (gi.cls, gi.text)

theorem move_two_clsText (la lb resc : Nat) :
    ∀ (j : Nat) (xs : List GItem),
      (move_two la lb resc j xs).1.map clsText = xs.map clsText := by
  intro j xs
  induction xs generalizing j with
  | nil => rfl
  | cons gi rest ih =>
    simp only [move_two]
    by_cases hla : gi.layer = la
    · simp only [hla, if_pos, List.map_cons, ih (j + 1)]
      rfl
    · rw [if_neg hla]
      by_cases hlb : gi.layer = lb
      · simp only [hlb, if_pos, List.map_cons, ih (j + 1)]
        rfl
      · rw [if_neg hlb]
        simp only [List.map_cons, ih (j + 1)]

theorem explicitMatch_congr (vname : String) (mv : String → Bool)
    (x y : GItem) (h : clsText x = clsText y) :
    explicitMatch vname mv x = explicitMatch vname mv y := by
  have h1 : x.cls = y.cls := congrArg Prod.fst h
  have h2 : x.text = y.text := congrArg Prod.snd h
  unfold explicitMatch
  rw [h1, h2]

theorem scanUpd_congr (x y : GItem) (h : clsText x = clsText y)
    (d : Option Unit) (l : List String) : scanUpd x d l = scanUpd y d l := by
  have h1 : x.cls = y.cls := congrArg Prod.fst h
  have h2 : x.text = y.text := congrArg Prod.snd h
  unfold scanUpd
  rw [h1, h2]

theorem scanAspect_congr (vname : String) (mv : String → Bool) :
    ∀ (xs ys : List GItem), xs.map clsText = ys.map clsText →
      ∀ d l, scanAspect vname mv xs d l = scanAspect vname mv ys d l := by
  intro xs
  induction xs with
  | nil =>
    intro ys h d l
    cases ys with
    | nil => rfl
    | cons y ys2 => simp at h
  | cons x xs2 ih =>
    intro ys h d l
    cases ys with
    | nil => simp at h
    | cons y ys2 =>
      simp only [List.map_cons, List.cons.injEq] at h
      rw [scanAspect_cons, scanAspect_cons, explicitMatch_congr vname mv x y h.1,
        scanUpd_congr x y h.1]
      cases explicitMatch vname mv y with
      | some s => rfl
      | none => exact ih ys2 h.2 _ _

theorem scanAspect_append_nonMTEXT (vname : String) (mv : String → Bool) :
    ∀ (xs ys : List GItem), (∀ y ∈ ys, ¬y.cls = "MTEXT") →
      ∀ d l, scanAspect vname mv (xs ++ ys) d l = scanAspect vname mv xs d l := by
  intro xs
  induction xs with
  | nil =>
    intro ys h d l
    simp only [List.nil_append]
    induction ys generalizing d l with
    | nil => rfl
    | cons y ys2 ih2 =>
      have hy := h y (List.mem_cons_self y ys2)
      rw [scanAspect_cons]
      have hm : explicitMatch vname mv y = none := by simp [explicitMatch, hy]
      have hu : scanUpd y d l = (d, l) := by simp [scanUpd, hy]
      rw [hm, hu]
      exact ih2 (fun z hz => h z (List.mem_cons_of_mem y hz)) d l
  | cons x xs2 ih =>
    intro ys h d l
    rw [List.cons_append, scanAspect_cons, scanAspect_cons]
    cases explicitMatch vname mv x with
    | some s => rfl
    | none => exact ih ys h _ _

theorem pads_restore_roundtrip (L : LayerIds) :
    ∀ (pads : List Pad),
      ((pads.map (process_pad L)).map (fun q => q.1)).zipWith
        (fun _ o => Pad.mk o) (pads.map (fun p => p.layers)) = pads := by
  intro pads
  induction pads with
  | nil => rfl
  | cons p rest ih =>
    simp only [List.map_cons, List.zipWith_cons_cons, ih]

theorem pads_flag_false_id :
    ∀ (pads : List Pad), (pads.map (fun p => (p, false))).map (fun q => q.1) = pads := by
  intro pads
  induction pads with
  | nil => rfl
  | cons p rest ih => simp only [List.map_cons, ih]

theorem rename_models_fp_none (M : List Model3D) :
    rename_models_fp [] none M = M := by
  unfold rename_models_fp
  simp only [List.reverse_nil, List.find?_nil]
  have h : M.reverse.enum.map (fun p : Nat × Model3D => p.2) = M.reverse :=
    List.enum_map_snd M.reverse
  rw [h, List.reverse_reverse]

/-- Undoing a replacement: renaming the replaced models of a footprint with
the recorded original filenames restores the pre-replacement models. -/
theorem rename_models_fp_replaced (M : List Model3D) (nm : List String)
    (hlen : M.length ≤ nm.length) :
    rename_models_fp [] (some (M.reverse.map (fun m => m.filename)))
      ((M.reverse.zipWith (fun m r => { m with filename := r }) nm).reverse) = M := by
  cases hM : M with
  | nil => rfl
  | cons m0 M0 =>
    rw [← hM]
    have hMne : M ≠ [] := by rw [hM]; exact List.cons_ne_nil m0 M0
    have hrl : M.reverse.map (fun m => m.filename) ≠ [] := by
      intro hc
      apply hMne
      have := congrArg List.length hc
      simp at this
      exact this
    unfold rename_models_fp
    rw [List.reverse_reverse]
    simp only [List.reverse_nil, List.find?_nil, hrl, if_pos, ne_eq,
      not_false_iff]
    have hz : (M.reverse.zipWith
        (fun m r => ({ m with filename := r } : Model3D)) nm).enum.map
        (fun p : Nat × Model3D =>
          { p.2 with filename :=
              (M.reverse.map (fun m => m.filename)).getD p.1 p.2.filename }) =
        M.reverse := by
      apply List.ext_getElem?
      intro i
      rw [List.getElem?_map, List.getElem?_enum]
      have hzlen : (M.reverse.zipWith
          (fun m r => ({ m with filename := r } : Model3D)) nm).length =
          M.length := by
        rw [List.length_zipWith, List.length_reverse]
        omega
      by_cases hi : i < M.length
      · rw [List.getElem?_zipWith']
        have hmi : M.reverse[i]? = some (M.reverse.getD i (Model3D.mk "")) := by
          rw [List.getD_eq_getElem?_getD,
            List.getElem?_eq_getElem (by rw [List.length_reverse]; omega)]
          rfl
        have hni : nm[i]? = some (nm.getD i "") := by
          rw [List.getD_eq_getElem?_getD, List.getElem?_eq_getElem (by omega)]
          rfl
        have hfi : (M.reverse.map (fun m => m.filename))[i]? =
            some ((M.reverse.getD i (Model3D.mk "")).filename) := by
          rw [List.getElem?_map, hmi]
          rfl
        have hgd : ∀ d, (M.reverse.map (fun m => m.filename)).getD i d =
            (M.reverse.getD i (Model3D.mk "")).filename := by
          intro d
          rw [List.getD_eq_getElem?_getD, hfi]
          rfl
        rw [hmi, hni]
        simp only [Option.map_some', Option.some_bind]
        rw [hgd]
      · have h1 : (M.reverse.zipWith
            (fun m r => ({ m with filename := r } : Model3D)) nm)[i]? = none := by
          rw [List.getElem?_eq_none]
          omega
        have h2 : M.reverse[i]? = none := by
          rw [List.getElem?_eq_none]
          rw [List.length_reverse]
          omega
        rw [h1, h2]
        rfl
    rw [hz, List.reverse_reverse]

theorem refs_hash_ref (comps : List Component) (r : String) (c : Component)
    (h : refs_hash comps r = some c) : c.ref = r := by
  unfold refs_hash at h
  have := List.find?_some h
  simpa using this

theorem lookup_rep_cons_ne (e : String × List String)
    (reps : List (String × List String)) (r : String) (h : ¬e.1 = r) :
    lookup_rep (e :: reps) r = lookup_rep reps r := by
  unfold lookup_rep
  rw [List.reverse_cons, List.find?_append]
  have he : List.find? (fun x => x.1 = r) [e] = none := by
    simp [List.find?, h]
  rw [he]
  cases List.find? (fun x => x.1 = r) reps.reverse <;> rfl

theorem lookup_rep_cons_self (k : String) (v : List String)
    (reps : List (String × List String)) (h : ∀ e ∈ reps, ¬e.1 = k) :
    lookup_rep ((k, v) :: reps) k = some v := by
  unfold lookup_rep
  rw [List.reverse_cons, List.find?_append]
  have hnone : List.find? (fun x => x.1 = k) reps.reverse = none := by
    rw [List.find?_eq_none]
    intro e he
    simp only [decide_eq_true_eq]
    exact h e (List.mem_reverse.mp he)
  rw [hnone]
  simp [List.find?]

/-- Inversion of one step of `remove_3D_models`: a successful removal on
`fp :: rest` succeeds on `rest` and treats `fp` by exactly one of the three
source branches (model removal for an included-but-not-fitted component,
model replacement for a known component with a 3D-model field, or no
change). -/
theorem remove_3D_list_cons (G : Globals) (ch : String → Option Component)
    (fp : Footprint) (rest : List Footprint)
    (out : List Footprint × List (List Model3D) × List (String × List String))
    (h : remove_3D_list G ch (fp :: rest) = .ok out) :
    ∃ t, remove_3D_list G ch rest = .ok t ∧
      ((∃ c, ch fp.ref = some c ∧ (c.included && !c.fitted) = true ∧
        out = ({ fp with models := [] } :: t.1, fp.models.reverse :: t.2.1, t.2.2)) ∨
      (∃ c q, ch fp.ref = some c ∧ (c.included && !c.fitted) = false ∧
        ¬get_field_value c G.field_3D_model = "" ∧
        replace_3D_models fp.models (get_field_value c G.field_3D_model) c = .ok q ∧
        out = ({ fp with models := q.1 } :: t.1, t.2.1, (c.ref, q.2) :: t.2.2)) ∨
      ((ch fp.ref = none ∨ ∃ c, ch fp.ref = some c ∧
          (c.included && !c.fitted) = false ∧
          get_field_value c G.field_3D_model = "") ∧
        out = (fp :: t.1, t.2.1, t.2.2))) := by
  cases hc : ch fp.ref with
  | none =>
    cases hr : remove_3D_list G ch rest with
    | error msg =>
      simp only [remove_3D_list, hc, hr, Except.bind, bind] at h
      exact Except.noConfusion h
    | ok t =>
      refine ⟨t, rfl, Or.inr (Or.inr ⟨Or.inl rfl, ?_⟩)⟩
      simp only [remove_3D_list, hc, hr, Except.bind, bind, Except.ok.injEq] at h
      exact h.symm
  | some c =>
    by_cases hdnp : (c.included && !c.fitted) = true
    · cases hr : remove_3D_list G ch rest with
      | error msg =>
        simp only [remove_3D_list, hc, hdnp, if_true, hr, Except.bind, bind] at h
        exact Except.noConfusion h
      | ok t =>
        refine ⟨t, rfl, Or.inl ⟨c, rfl, hdnp, ?_⟩⟩
        simp only [remove_3D_list, hc, hdnp, if_true, hr, Except.bind, bind,
          Except.ok.injEq] at h
        exact h.symm
    · by_cases hnm : get_field_value c G.field_3D_model = ""
      · have hnm2 : ¬(get_field_value c G.field_3D_model ≠ "") := fun hx => hx hnm
        cases hr : remove_3D_list G ch rest with
        | error msg =>
          simp only [remove_3D_list, hc, hdnp, hnm2, hr, Except.bind, bind,
            Bool.false_eq_true, if_false, if_true, ne_eq, not_true_eq_false,
            not_false_eq_true, Except.ok.injEq] at h
          exact Except.noConfusion h
        | ok t =>
          refine ⟨t, rfl, Or.inr (Or.inr ⟨Or.inr ⟨c, rfl, eq_false_of_ne_true hdnp,
            hnm⟩, ?_⟩)⟩
          simp only [remove_3D_list, hc, hdnp, hnm2, hr, Except.bind, bind,
            Bool.false_eq_true, if_false, if_true, ne_eq, not_true_eq_false,
            not_false_eq_true, Except.ok.injEq] at h
          exact h.symm
      · cases hrep : replace_3D_models fp.models
            (get_field_value c G.field_3D_model) c with
        | error msg =>
          simp only [remove_3D_list, hc, hdnp, hnm, hrep, Except.bind, bind,
            Bool.false_eq_true, if_false, if_true, ne_eq, not_true_eq_false,
            not_false_eq_true, Except.ok.injEq] at h
          exact Except.noConfusion h
        | ok q =>
          cases hr : remove_3D_list G ch rest with
          | error msg =>
            simp only [remove_3D_list, hc, hdnp, hnm, hrep, hr, Except.bind,
              bind, Bool.false_eq_true, if_false, if_true, ne_eq,
              not_true_eq_false, not_false_eq_true, Except.ok.injEq] at h
            exact Except.noConfusion h
          | ok t =>
            refine ⟨t, rfl, Or.inr (Or.inl ⟨c, q, rfl, eq_false_of_ne_true hdnp,
              hnm, hrep, ?_⟩)⟩
            simp only [remove_3D_list, hc, hdnp, hnm, hrep, hr, Except.bind,
              bind, Bool.false_eq_true, if_false, if_true, ne_eq,
              not_true_eq_false, not_false_eq_true, Except.ok.injEq] at h
            exact h.symm

/-- Every key recorded by `remove_3D_models` is the reference of a processed
footprint (the hash maps a reference to a component carrying it). -/
theorem remove_3D_list_keys (G : Globals) (ch : String → Option Component)
    (hch : ∀ r c, ch r = some c → c.ref = r) :
    ∀ (fps : List Footprint)
      (out : List Footprint × List (List Model3D) × List (String × List String)),
      remove_3D_list G ch fps = .ok out →
      ∀ e ∈ out.2.2, e.1 ∈ fps.map (fun fp => fp.ref) := by
  intro fps
  induction fps with
  | nil =>
    intro out h e he
    simp only [remove_3D_list, Except.ok.injEq] at h
    rw [← h] at he
    cases he
  | cons fp rest ih =>
    intro out h e he
    obtain ⟨t, ht, hcase⟩ := remove_3D_list_cons G ch fp rest out h
    rcases hcase with ⟨c, hc, hdnp, hout⟩ | ⟨c, q, hc, hdnp, hnm, hrep, hout⟩ |
      ⟨hplain, hout⟩
    · rw [hout] at he
      exact List.mem_cons_of_mem _ (ih t ht e he)
    · rw [hout] at he
      simp only [List.mem_cons] at he
      rcases he with he | he
      · rw [he]
        simp only [List.map_cons, List.mem_cons]
        exact Or.inl (hch fp.ref c hc)
      · exact List.mem_cons_of_mem _ (ih t ht e he)
    · rw [hout] at he
      exact List.mem_cons_of_mem _ (ih t ht e he)

/-! Unfolding lemmas for the per-footprint walks of the 2D/3D passes. -/

theorem cross_list_cons_pos (L : LayerIds) (ch : String → Option Component)
    (fp : Footprint) (rest : List Footprint) (h : dnp_selected ch fp = true) :
    cross_list L ch (fp :: rest) =
      ((cross_fp L fp).1 :: (cross_list L ch rest).1,
        (cross_fp L fp).2.1 :: (cross_list L ch rest).2.1,
        (cross_fp L fp).2.2 :: (cross_list L ch rest).2.2) := by
  simp only [cross_list, h, if_true]

theorem cross_list_cons_neg (L : LayerIds) (ch : String → Option Component)
    (fp : Footprint) (rest : List Footprint) (h : dnp_selected ch fp = false) :
    cross_list L ch (fp :: rest) =
      (fp :: (cross_list L ch rest).1,
        (cross_list L ch rest).2.1, (cross_list L ch rest).2.2) := by
  simp only [cross_list, h, Bool.false_eq_true, if_false]

theorem paste_list_cons_pos (G : Globals) (L : LayerIds)
    (ch : String → Option Component) (fp : Footprint) (rest : List Footprint)
    (h : dnp_selected ch fp = true) :
    paste_list G L ch (fp :: rest) =
      ((paste_fp G L fp).1 :: (paste_list G L ch rest).1,
        (paste_fp G L fp).2.1 :: (paste_list G L ch rest).2.1,
        (paste_fp G L fp).2.2.1 :: (paste_list G L ch rest).2.2.1,
        (paste_fp G L fp).2.2.2 ++ (paste_list G L ch rest).2.2.2) := by
  simp only [paste_list, h, if_true]

theorem paste_list_cons_neg (G : Globals) (L : LayerIds)
    (ch : String → Option Component) (fp : Footprint) (rest : List Footprint)
    (h : dnp_selected ch fp = false) :
    paste_list G L ch (fp :: rest) =
      (fp :: (paste_list G L ch rest).1, (paste_list G L ch rest).2.1,
        (paste_list G L ch rest).2.2.1, (paste_list G L ch rest).2.2.2) := by
  simp only [paste_list, h, Bool.false_eq_true, if_false]

theorem fab_list_cons_pos (L : LayerIds) (ch : String → Option Component)
    (fp : Footprint) (rest : List Footprint) (h : excluded_selected ch fp = true) :
    fab_list L ch (fp :: rest) =
      ((fab_fp L fp).1 :: (fab_list L ch rest).1,
        ((fab_fp L fp).2.1, (fab_fp L fp).2.2) :: (fab_list L ch rest).2) := by
  simp only [fab_list, h, if_true]

theorem fab_list_cons_neg (L : LayerIds) (ch : String → Option Component)
    (fp : Footprint) (rest : List Footprint) (h : excluded_selected ch fp = false) :
    fab_list L ch (fp :: rest) =
      (fp :: (fab_list L ch rest).1, (fab_list L ch rest).2) := by
  simp only [fab_list, h, Bool.false_eq_true, if_false]

theorem uncross_list_cons_pos (ch : String → Option Component) (fp : Footprint)
    (rest : List Footprint) (cf cb : List Bool) (h : dnp_selected ch fp = true) :
    uncross_list ch (fp :: rest) cf cb =
      uncross_fp (cf.headD false) (cb.headD false) fp ::
        uncross_list ch rest cf.tail cb.tail := by
  simp only [uncross_list, h, if_true]

theorem uncross_list_cons_neg (ch : String → Option Component) (fp : Footprint)
    (rest : List Footprint) (cf cb : List Bool) (h : dnp_selected ch fp = false) :
    uncross_list ch (fp :: rest) cf cb = fp :: uncross_list ch rest cf cb := by
  simp only [uncross_list, h, Bool.false_eq_true, if_false]

theorem paste_restore_list_cons_pos (G : Globals) (L : LayerIds)
    (ch : String → Option Component) (fp : Footprint) (rest : List Footprint)
    (ols : List (List (List Nat))) (ads : List (List Nat × List Nat))
    (h : dnp_selected ch fp = true) :
    paste_restore_list G L ch (fp :: rest) ols ads =
      paste_restore_fp G L fp (ols.headD []) (ads.headD ([], [])) ::
        paste_restore_list G L ch rest ols.tail ads.tail := by
  simp only [paste_restore_list, h, if_true]

theorem paste_restore_list_cons_neg (G : Globals) (L : LayerIds)
    (ch : String → Option Component) (fp : Footprint) (rest : List Footprint)
    (ols : List (List (List Nat))) (ads : List (List Nat × List Nat))
    (h : dnp_selected ch fp = false) :
    paste_restore_list G L ch (fp :: rest) ols ads =
      fp :: paste_restore_list G L ch rest ols ads := by
  simp only [paste_restore_list, h, Bool.false_eq_true, if_false]

theorem fab_restore_list_cons_pos (L : LayerIds) (ch : String → Option Component)
    (fp : Footprint) (rest : List Footprint) (recs : List (List Nat × List Nat))
    (h : excluded_selected ch fp = true) :
    fab_restore_list L ch (fp :: rest) recs =
      (let rc := recs.headD ([], []) ;
        { fp with gitems := restore_two L.ffab L.bfab rc.1 rc.2 0 fp.gitems }) ::
        fab_restore_list L ch rest recs.tail := by
  simp only [fab_restore_list, h, if_true]

theorem fab_restore_list_cons_neg (L : LayerIds) (ch : String → Option Component)
    (fp : Footprint) (rest : List Footprint) (recs : List (List Nat × List Nat))
    (h : excluded_selected ch fp = false) :
    fab_restore_list L ch (fp :: rest) recs = fp :: fab_restore_list L ch rest recs := by
  simp only [fab_restore_list, h, Bool.false_eq_true, if_false]

theorem restore_3D_list_cons_pos (ch : String → Option Component) (fp : Footprint)
    (rest : List Footprint) (rems : List (List Model3D))
    (h : dnp_selected ch fp = true) :
    restore_3D_list ch (fp :: rest) rems =
      { fp with models := (rems.headD []).reverse ++ fp.models } ::
        restore_3D_list ch rest rems.tail := by
  simp only [restore_3D_list, h, if_true]

theorem restore_3D_list_cons_neg (ch : String → Option Component) (fp : Footprint)
    (rest : List Footprint) (rems : List (List Model3D))
    (h : dnp_selected ch fp = false) :
    restore_3D_list ch (fp :: rest) rems = fp :: restore_3D_list ch rest rems := by
  simp only [restore_3D_list, h, Bool.false_eq_true, if_false]

/-! Field accessors and congruence facts used to chase a footprint through
the passes. -/

theorem aspect_fp_ref (vname : String) (mv : String → Bool) (e : Bool)
    (fp : Footprint) : (aspect_fp vname mv e fp).ref = fp.ref := by
  unfold aspect_fp
  cases scanAspect vname mv fp.gitems none [] <;> rfl

theorem aspect_fp_gitems (vname : String) (mv : String → Bool) (e : Bool)
    (fp : Footprint) : (aspect_fp vname mv e fp).gitems = fp.gitems := by
  unfold aspect_fp
  cases scanAspect vname mv fp.gitems none [] <;> rfl

theorem aspect_fp_pads (vname : String) (mv : String → Bool) (e : Bool)
    (fp : Footprint) : (aspect_fp vname mv e fp).pads = fp.pads := by
  unfold aspect_fp
  cases scanAspect vname mv fp.gitems none [] <;> rfl

theorem aspect_fp_models (vname : String) (mv : String → Bool) (e : Bool)
    (fp : Footprint) : (aspect_fp vname mv e fp).models =
      match scanAspect vname mv fp.gitems none [] with
      | some s => apply_list_of_3D_models e s fp.models
      | none => fp.models := by
  unfold aspect_fp
  cases scanAspect vname mv fp.gitems none [] <;> rfl

theorem dnp_selected_congr (ch : String → Option Component) (fp fp2 : Footprint)
    (h : fp2.ref = fp.ref) : dnp_selected ch fp2 = dnp_selected ch fp := by
  unfold dnp_selected
  rw [h]

theorem excluded_selected_congr (ch : String → Option Component) (fp fp2 : Footprint)
    (h : fp2.ref = fp.ref) : excluded_selected ch fp2 = excluded_selected ch fp := by
  unfold excluded_selected
  rw [h]

theorem dnp_not_excluded (ch : String → Option Component) (fp : Footprint)
    (h : dnp_selected ch fp = true) : excluded_selected ch fp = false := by
  unfold dnp_selected at h
  unfold excluded_selected
  cases hc : ch fp.ref with
  | none => rfl
  | some c =>
    rw [hc] at h
    simp only [Bool.and_eq_true] at h
    simp [h.1]

theorem cross_segs_layer (layer : Nat) :
    ∀ y ∈ cross_segs layer, y.layer = layer := by
  intro y hy
  simp only [cross_segs, List.mem_cons, List.not_mem_nil, or_false] at hy
  rcases hy with h | h <;> rw [h]

theorem cross_segs_cls (layer : Nat) :
    ∀ y ∈ cross_segs layer, ¬y.cls = "MTEXT" := by
  intro y hy
  simp only [cross_segs, List.mem_cons, List.not_mem_nil, or_false] at hy
  rcases hy with h | h <;> (rw [h]; simp)

theorem lookup_rep_not_mem (reps : List (String × List String)) (r : String)
    (h : ∀ e ∈ reps, ¬e.1 = r) : lookup_rep reps r = none := by
  unfold lookup_rep
  rw [show List.find? (fun e => e.1 = r) reps.reverse = none by
    rw [List.find?_eq_none]
    intro e he
    simp only [decide_eq_true_eq]
    exact h e (List.mem_reverse.mp he)]
  rfl

/-- Inversion of a successful `replace_3D_models`. -/
theorem replace_ok_inv (M : List Model3D) (nm : String) (c : Component)
    (q : List Model3D × List String)
    (h : replace_3D_models M nm c = .ok q) :
    ∃ reps : List String, M.length ≤ reps.length ∧
      q = ((M.reverse.zipWith (fun m r => { m with filename := r }) reps).reverse,
        M.reverse.map (fun m => m.filename)) := by
  unfold replace_3D_models at h
  by_cases h1 : M.reverse.length > 1
  · by_cases h2 : M.reverse.length ≠ (pySplitComma nm).length
    · simp only [h1, h2, ne_eq, not_false_eq_true, if_true, if_false,
        Except.map] at h
      exact Except.noConfusion h
    · refine ⟨pySplitComma nm, ?_, ?_⟩
      · rw [List.length_reverse] at h2
        omega
      · simp only [h1, h2, ne_eq, not_false_eq_true, not_true_eq_false,
          if_true, if_false, Except.map, Except.ok.injEq] at h
        exact h.symm
  · refine ⟨[nm], ?_, ?_⟩
    · rw [List.length_reverse] at h1
      simp only [List.length_cons, List.length_nil]
      omega
    · simp only [h1, if_false, Except.map, Except.ok.injEq] at h
      exact h.symm

/-- The graphical items appended by `cross_fp` carry no adhesive layer. -/
theorem cross_tail_neutral (L : LayerIds)
    (hs1 : ¬L.ffab = L.fadhes) (hs2 : ¬L.ffab = L.badhes)
    (hs3 : ¬L.bfab = L.fadhes) (hs4 : ¬L.bfab = L.badhes) (hasF hasB : Bool) :
    ∀ y ∈ ((if hasF then cross_segs L.ffab else []) ++
      (if hasB then cross_segs L.bfab else [])),
      ¬y.layer = L.fadhes ∧ ¬y.layer = L.badhes := by
  intro y hy
  rcases List.mem_append.mp hy with h | h
  · cases hasF with
    | false => cases h
    | true =>
      have := cross_segs_layer L.ffab y h
      rw [this]
      exact ⟨hs1, hs2⟩
  · cases hasB with
    | false => cases h
    | true =>
      have := cross_segs_layer L.bfab y h
      rw [this]
      exact ⟨hs3, hs4⟩

theorem cross_tail_length (L : LayerIds) (hasF hasB : Bool) :
    ((if hasF then cross_segs L.ffab else []) ++
      (if hasB then cross_segs L.bfab else [])).length =
      (cond hasF 2 0) + (cond hasB 2 0) := by
  cases hasF <;> cases hasB <;> rfl

/-- The graphical-item round trip for a crossed and paste/adhesive-processed
footprint: appending the cross segments, moving the adhesive items, removing
the trailing segments and restoring the moved items recovers the original
item list. -/
theorem gitems_dnp_roundtrip (L : LayerIds)
    (hs1 : ¬L.ffab = L.fadhes) (hs2 : ¬L.ffab = L.badhes)
    (hs3 : ¬L.bfab = L.fadhes) (hs4 : ¬L.bfab = L.badhes)
    (xs ys g1 g2 g3 : List GItem) (fa fb : List Nat)
    (hasF hasB adhesFlag : Bool)
    (hys : ys = (if hasF then cross_segs L.ffab else []) ++
      (if hasB then cross_segs L.bfab else []))
    (hg1 : g1 = xs ++ ys)
    (hg2 : g2 = if adhesFlag = true then
      (move_two L.fadhes L.badhes L.rescue 0 g1).1 else g1)
    (hfa : fa = (move_two L.fadhes L.badhes L.rescue 0 g1).2.1)
    (hfb : fb = (move_two L.fadhes L.badhes L.rescue 0 g1).2.2)
    (hg3 : g3 = g2.take (g2.length - ((cond hasF 2 0) + (cond hasB 2 0)))) :
    (if adhesFlag = true then restore_two L.fadhes L.badhes fa fb 0 g3 else g3) =
      xs := by
  subst hys hg1 hg2 hfa hfb hg3
  have hneut := cross_tail_neutral L hs1 hs2 hs3 hs4 hasF hasB
  have hlen := cross_tail_length L hasF hasB
  have hmv := move_two_append_neutral L.fadhes L.badhes L.rescue 0 xs
    ((if hasF then cross_segs L.ffab else []) ++
      (if hasB then cross_segs L.bfab else [])) hneut
  cases adhesFlag with
  | false =>
    simp only [Bool.false_eq_true, if_false]
    rw [List.length_append, hlen, Nat.add_sub_cancel]
    exact List.take_left' rfl
  | true =>
    simp only [if_true]
    rw [hmv]
    have hl2 : (move_two L.fadhes L.badhes L.rescue 0 xs).1.length = xs.length :=
      move_two_length L.fadhes L.badhes L.rescue 0 xs
    simp only [List.length_append, hl2, hlen, Nat.add_sub_cancel]
    rw [List.take_left' hl2]
    exact move_restore_two L.fadhes L.badhes L.rescue 0 xs

/-- Disabling then re-enabling the variant aspect of a footprint is the
identity. -/
theorem aspect_fp_roundtrip (vname : String) (mv : String → Bool)
    (fp : Footprint) :
    aspect_fp vname mv true (aspect_fp vname mv false fp) = fp := by
  have hg := aspect_fp_gitems vname mv false fp
  conv_lhs => rw [aspect_fp, hg]
  cases hscan : scanAspect vname mv fp.gitems none [] with
  | none =>
    simp only []
    rw [aspect_fp, hscan]
  | some s =>
    simp only []
    have hm := aspect_fp_models vname mv false fp
    rw [hm, hscan]
    rw [show (aspect_fp vname mv false fp) =
      { fp with models := apply_list_of_3D_models false s fp.models } by
        rw [aspect_fp, hscan]]
    rw [apply_list_disable_enable]

/-- Re-enabling over a footprint whose graphical items were 2D-mutated but
whose class/text view is unchanged undoes the disable pass on the models. -/
theorem models_aspect_roundtrip (vname : String) (mv : String → Bool)
    (gF gO : List GItem) (hcong : gF.map clsText = gO.map clsText)
    (M : List Model3D) :
    (match scanAspect vname mv gO none [] with
     | some s => apply_list_of_3D_models true s
        (match scanAspect vname mv gF none [] with
         | some s2 => apply_list_of_3D_models false s2 M
         | none => M)
     | none =>
        (match scanAspect vname mv gF none [] with
         | some s2 => apply_list_of_3D_models false s2 M
         | none => M)) = M := by
  rw [scanAspect_congr vname mv gF gO hcong]
  cases scanAspect vname mv gO none [] with
  | some s => exact apply_list_disable_enable s M
  | none => rfl

/-! Projection facts for the per-footprint passes, all definitional. -/

theorem footprint_eq (a b : Footprint) (h1 : a.ref = b.ref)
    (h2 : a.gitems = b.gitems) (h3 : a.pads = b.pads)
    (h4 : a.models = b.models) : a = b := by
  cases a
  cases b
  simp only [] at h1 h2 h3 h4
  rw [h1, h2, h3, h4]

theorem update_models_models (f : Footprint) (a : List Model3D) :
    ({ f with models := a } : Footprint).models = a := rfl

theorem update_models_ref (f : Footprint) (a : List Model3D) :
    ({ f with models := a } : Footprint).ref = f.ref := rfl

theorem update_models_gitems (f : Footprint) (a : List Model3D) :
    ({ f with models := a } : Footprint).gitems = f.gitems := rfl

theorem update_models_pads (f : Footprint) (a : List Model3D) :
    ({ f with models := a } : Footprint).pads = f.pads := rfl

theorem update_gitems_ref (f : Footprint) (g : List GItem) :
    ({ f with gitems := g } : Footprint).ref = f.ref := rfl

theorem update_gitems_gitems (f : Footprint) (g : List GItem) :
    ({ f with gitems := g } : Footprint).gitems = g := rfl

theorem update_gitems_pads (f : Footprint) (g : List GItem) :
    ({ f with gitems := g } : Footprint).pads = f.pads := rfl

theorem update_gitems_models (f : Footprint) (g : List GItem) :
    ({ f with gitems := g } : Footprint).models = f.models := rfl

theorem update_models_self (f : Footprint) :
    ({ f with models := f.models } : Footprint) = f := rfl

theorem cross_fp_fst_ref (L : LayerIds) (fp : Footprint) :
    (cross_fp L fp).1.ref = fp.ref := rfl

theorem cross_fp_fst_pads (L : LayerIds) (fp : Footprint) :
    (cross_fp L fp).1.pads = fp.pads := rfl

theorem cross_fp_fst_models (L : LayerIds) (fp : Footprint) :
    (cross_fp L fp).1.models = fp.models := rfl

theorem paste_fp_fst_ref (G : Globals) (L : LayerIds) (fp : Footprint) :
    (paste_fp G L fp).1.ref = fp.ref := rfl

theorem paste_fp_fst_models (G : Globals) (L : LayerIds) (fp : Footprint) :
    (paste_fp G L fp).1.models = fp.models := rfl

theorem fab_fp_fst_ref (L : LayerIds) (fp : Footprint) :
    (fab_fp L fp).1.ref = fp.ref := rfl

theorem fab_fp_fst_pads (L : LayerIds) (fp : Footprint) :
    (fab_fp L fp).1.pads = fp.pads := rfl

theorem fab_fp_fst_models (L : LayerIds) (fp : Footprint) :
    (fab_fp L fp).1.models = fp.models := rfl

theorem fab_fp_fst_gitems (L : LayerIds) (fp : Footprint) :
    (fab_fp L fp).1.gitems = (move_two L.ffab L.bfab L.rescue 0 fp.gitems).1 := rfl

theorem uncross_fp_ref (hf hb : Bool) (fp : Footprint) :
    (uncross_fp hf hb fp).ref = fp.ref := rfl

theorem uncross_fp_pads (hf hb : Bool) (fp : Footprint) :
    (uncross_fp hf hb fp).pads = fp.pads := rfl

theorem uncross_fp_models (hf hb : Bool) (fp : Footprint) :
    (uncross_fp hf hb fp).models = fp.models := rfl

theorem paste_restore_fp_ref (G : Globals) (L : LayerIds) (fp : Footprint)
    (old : List (List Nat)) (ad : List Nat × List Nat) :
    (paste_restore_fp G L fp old ad).ref = fp.ref := rfl

theorem paste_restore_fp_models (G : Globals) (L : LayerIds) (fp : Footprint)
    (old : List (List Nat)) (ad : List Nat × List Nat) :
    (paste_restore_fp G L fp old ad).models = fp.models := rfl

theorem rename_models_fp_nil (u : List (String × String))
    (rn : Option (List String)) : rename_models_fp u rn [] = [] := rfl

/-- The round trip of a footprint that is not DNP-selected: the cross and
paste passes skip it, the fab pass moves its fab items if `fabFlag` holds,
the disable-aspect pass and the 3D removal pass replace its models by `M`,
and the restore side (fab restore, rename with `rn`, enable aspect)
recovers the original footprint, provided renaming `M` through `rn` yields
the disabled models back. -/
theorem nondnp_head_roundtrip (G : Globals) (L : LayerIds) (vname : String)
    (mv : String → Bool) (fp : Footprint) (fabFlag : Bool)
    (f3 f4 u0 v2 v3 : Footprint) (rn : Option (List String)) (M : List Model3D)
    (hf3 : f3 = if fabFlag = true then (fab_fp L fp).1 else fp)
    (hf4 : f4 = aspect_fp vname mv false f3)
    (hu0 : u0 = { f4 with models := M })
    (hv2 : v2 = if fabFlag = true then
      { u0 with
        gitems := restore_two L.ffab L.bfab (fab_fp L fp).2.1 (fab_fp L fp).2.2 0 u0.gitems }
      else u0)
    (hren : rename_models_fp ([]) rn M = f4.models)
    (hv3 : v3 = { v2 with models := rename_models_fp ([]) rn v2.models }) :
    aspect_fp vname mv true v3 = fp := by
  have hv3af : v3 = aspect_fp vname mv false fp := by
    cases fabFlag with
    | false =>
      rw [if_neg (by exact Bool.false_ne_true)] at hf3 hv2
      apply footprint_eq
      · rw [hv3, update_models_ref, hv2, hu0, update_models_ref, hf4,
          aspect_fp_ref, aspect_fp_ref, hf3]
      · rw [hv3, update_models_gitems, hv2, hu0, update_models_gitems, hf4,
          aspect_fp_gitems, aspect_fp_gitems, hf3]
      · rw [hv3, update_models_pads, hv2, hu0, update_models_pads, hf4,
          aspect_fp_pads, aspect_fp_pads, hf3]
      · rw [hv3, update_models_models, hv2, hu0, update_models_models, hren,
          hf4, hf3]
    | true =>
      rw [if_pos rfl] at hf3 hv2
      have hscan : ∀ d l, scanAspect vname mv f3.gitems d l =
          scanAspect vname mv fp.gitems d l := by
        intro d l
        refine scanAspect_congr vname mv _ _ ?_ d l
        rw [hf3, fab_fp_fst_gitems]
        exact move_two_clsText L.ffab L.bfab L.rescue 0 fp.gitems
      apply footprint_eq
      · rw [hv3, update_models_ref, hv2, update_gitems_ref, hu0,
          update_models_ref, hf4, aspect_fp_ref, aspect_fp_ref, hf3,
          fab_fp_fst_ref]
      · rw [hv3, update_models_gitems, hv2, update_gitems_gitems, hu0,
          update_models_gitems, hf4, aspect_fp_gitems, aspect_fp_gitems, hf3,
          fab_fp_fst_gitems]
        exact move_restore_two L.ffab L.bfab L.rescue 0 fp.gitems
      · rw [hv3, update_models_pads, hv2, update_gitems_pads, hu0,
          update_models_pads, hf4, aspect_fp_pads, aspect_fp_pads, hf3,
          fab_fp_fst_pads]
      · rw [hv3, update_models_models, hv2, update_gitems_models, hu0,
          update_models_models, hren, hf4, aspect_fp_models, aspect_fp_models,
          hscan]
        rw [show f3.models = fp.models by rw [hf3, fab_fp_fst_models]]
  rw [hv3af]
  exact aspect_fp_roundtrip vname mv fp

theorem cross_fp_fst_gitems (L : LayerIds) (fp : Footprint) :
    (cross_fp L fp).1.gitems = fp.gitems ++
      (if (cross_fp L fp).2.1 = true then cross_segs L.ffab else []) ++
      (if (cross_fp L fp).2.2 = true then cross_segs L.bfab else []) := rfl

theorem paste_fp_snd_old (G : Globals) (L : LayerIds) (fp : Footprint) :
    (paste_fp G L fp).2.1 = fp.pads.map (fun p => p.layers) := rfl

theorem paste_fp_fst_pads (G : Globals) (L : LayerIds) (fp : Footprint) :
    (paste_fp G L fp).1.pads =
      (if G.remove_solder_paste_for_dnp = true then fp.pads.map (process_pad L)
        else fp.pads.map (fun p => (p, false))).map (fun q => q.1) := rfl

theorem paste_fp_fst_gitems (G : Globals) (L : LayerIds) (fp : Footprint) :
    (paste_fp G L fp).1.gitems =
      (if G.remove_adhesive_for_dnp = true then
        move_two L.fadhes L.badhes L.rescue 0 fp.gitems
        else (fp.gitems, [], [])).1 := rfl

theorem paste_fp_ad (G : Globals) (L : LayerIds) (fp : Footprint) :
    (paste_fp G L fp).2.2.1 =
      ((if G.remove_adhesive_for_dnp = true then
          move_two L.fadhes L.badhes L.rescue 0 fp.gitems
          else (fp.gitems, [], [])).2.1,
        (if G.remove_adhesive_for_dnp = true then
          move_two L.fadhes L.badhes L.rescue 0 fp.gitems
          else (fp.gitems, [], [])).2.2) := rfl

theorem paste_restore_fp_gitems (G : Globals) (L : LayerIds) (fp : Footprint)
    (old : List (List Nat)) (ad : List Nat × List Nat) :
    (paste_restore_fp G L fp old ad).gitems =
      if G.remove_adhesive_for_dnp = true then
        restore_two L.fadhes L.badhes ad.1 ad.2 0 fp.gitems
      else fp.gitems := rfl

theorem paste_restore_fp_pads (G : Globals) (L : LayerIds) (fp : Footprint)
    (old : List (List Nat)) (ad : List Nat × List Nat) :
    (paste_restore_fp G L fp old ad).pads =
      if G.remove_solder_paste_for_dnp = true then
        fp.pads.zipWith (fun _ o => Pad.mk o) old
      else fp.pads := rfl

theorem uncross_fp_gitems (hf hb : Bool) (fp : Footprint) :
    (uncross_fp hf hb fp).gitems =
      fp.gitems.take (fp.gitems.length - ((cond hf 2 0) + (cond hb 2 0))) := rfl

theorem cross_tail_cls (L : LayerIds) (hF hB : Bool) :
    ∀ y ∈ ((if hF = true then cross_segs L.ffab else []) ++
      (if hB = true then cross_segs L.bfab else [])), ¬y.cls = "MTEXT" := by
  intro y hy
  rcases List.mem_append.mp hy with h | h
  · cases hF with
    | false => cases h
    | true => exact cross_segs_cls L.ffab y h
  · cases hB with
    | false => cases h
    | true => exact cross_segs_cls L.bfab y h

/-- The round trip of a DNP-selected footprint: the cross pass appends the
segments (when crossing is on), the paste/adhesive pass mutates pads and
moves the adhesive items (when on), the disable-aspect pass and the 3D
removal pass empty the models recording their reverse, and the restore side
(uncross, paste/adhesive restore, rename, 3D restore, enable aspect)
recovers the original footprint. -/
theorem dnp_head_roundtrip (G : Globals) (L : LayerIds) (vname : String)
    (mv : String → Bool)
    (hs1 : ¬L.ffab = L.fadhes) (hs2 : ¬L.ffab = L.badhes)
    (hs3 : ¬L.bfab = L.fadhes) (hs4 : ¬L.bfab = L.badhes)
    (fp : Footprint) (cF P : Bool)
    (hP : P = (G.remove_solder_paste_for_dnp || G.remove_adhesive_for_dnp))
    (f1 f2 f4 u0 v1 v2 v3 w : Footprint) (rn : Option (List String))
    (rem : List Model3D)
    (hf1 : f1 = if cF = true then (cross_fp L fp).1 else fp)
    (hf2 : f2 = if P = true then (paste_fp G L f1).1 else f1)
    (hf4 : f4 = aspect_fp vname mv false f2)
    (hu0 : u0 = { f4 with models := [] })
    (hrem : rem = f4.models.reverse)
    (hv1 : v1 = if cF = true then
      uncross_fp (cross_fp L fp).2.1 (cross_fp L fp).2.2 u0 else u0)
    (hv2 : v2 = paste_restore_fp G L v1
      (if P = true then (paste_fp G L f1).2.1 else [])
      (if P = true then (paste_fp G L f1).2.2.1 else ([], [])))
    (hv3 : v3 = { v2 with models := rename_models_fp ([]) rn v2.models })
    (hw : w = { v3 with models := rem.reverse ++ v3.models }) :
    aspect_fp vname mv true w = fp := by
  have hf1ref : f1.ref = fp.ref := by
    rw [hf1]
    split
    · exact cross_fp_fst_ref L fp
    · rfl
  have hf1pads : f1.pads = fp.pads := by
    rw [hf1]
    split
    · exact cross_fp_fst_pads L fp
    · rfl
  have hf1models : f1.models = fp.models := by
    rw [hf1]
    split
    · exact cross_fp_fst_models L fp
    · rfl
  have hf2ref : f2.ref = fp.ref := by
    rw [hf2]
    split
    · rw [paste_fp_fst_ref, hf1ref]
    · exact hf1ref
  have hf2models : f2.models = fp.models := by
    rw [hf2]
    split
    · rw [paste_fp_fst_models, hf1models]
    · exact hf1models
  have hscan1 : ∀ d l, scanAspect vname mv f1.gitems d l =
      scanAspect vname mv fp.gitems d l := by
    intro d l
    rw [hf1]
    cases cF with
    | false => simp only [Bool.false_eq_true, if_false]
    | true =>
      rw [if_pos rfl, cross_fp_fst_gitems, List.append_assoc]
      exact scanAspect_append_nonMTEXT vname mv fp.gitems _
        (cross_tail_cls L (cross_fp L fp).2.1 (cross_fp L fp).2.2) d l
  have hscan2 : ∀ d l, scanAspect vname mv f2.gitems d l =
      scanAspect vname mv fp.gitems d l := by
    intro d l
    rw [hf2]
    by_cases hPP : P = true
    · rw [if_pos hPP, paste_fp_fst_gitems]
      by_cases had : G.remove_adhesive_for_dnp = true
      · rw [if_pos had]
        exact (scanAspect_congr vname mv _ f1.gitems
          (move_two_clsText L.fadhes L.badhes L.rescue 0 f1.gitems) d l).trans
          (hscan1 d l)
      · rw [if_neg had]
        exact hscan1 d l
    · rw [if_neg hPP]
      exact hscan1 d l
  have hu0ref : u0.ref = fp.ref := by
    rw [hu0, update_models_ref, hf4, aspect_fp_ref, hf2ref]
  have hu0pads : u0.pads = f2.pads := by
    rw [hu0, update_models_pads, hf4, aspect_fp_pads]
  have hu0gitems : u0.gitems = f2.gitems := by
    rw [hu0, update_models_gitems, hf4, aspect_fp_gitems]
  have hv1ref : v1.ref = fp.ref := by
    rw [hv1]
    split
    · rw [uncross_fp_ref, hu0ref]
    · exact hu0ref
  have hv1pads : v1.pads = f2.pads := by
    rw [hv1]
    split
    · rw [uncross_fp_pads, hu0pads]
    · exact hu0pads
  have hv1models : v1.models = [] := by
    rw [hv1]
    have h0 : u0.models = [] := by rw [hu0, update_models_models]
    split
    · rw [uncross_fp_models, h0]
    · exact h0
  have hwaf : w = aspect_fp vname mv false fp := by
    apply footprint_eq
    · rw [hw, update_models_ref, hv3, update_models_ref, hv2,
        paste_restore_fp_ref, hv1ref, aspect_fp_ref]
    · rw [hw, update_models_gitems, hv3, update_models_gitems, hv2,
        paste_restore_fp_gitems, aspect_fp_gitems]
      by_cases had : G.remove_adhesive_for_dnp = true
      · have hPP : P = true := by rw [hP, had, Bool.or_true]
        rw [if_pos had, if_pos hPP, paste_fp_ad, if_pos had]
        have hv1g : v1.gitems = if cF = true then
            (move_two L.fadhes L.badhes L.rescue 0 f1.gitems).1.take
              ((move_two L.fadhes L.badhes L.rescue 0 f1.gitems).1.length -
                ((cond (cross_fp L fp).2.1 2 0) + (cond (cross_fp L fp).2.2 2 0)))
            else (move_two L.fadhes L.badhes L.rescue 0 f1.gitems).1 := by
          have hg2 : u0.gitems = (move_two L.fadhes L.badhes L.rescue 0 f1.gitems).1 := by
            rw [hu0gitems, hf2, if_pos hPP, paste_fp_fst_gitems, if_pos had]
          rw [hv1]
          split
          · rw [uncross_fp_gitems, hg2]
          · rw [hg2]
        rw [hv1g]
        cases cF with
        | false =>
          simp only [Bool.false_eq_true, if_false] at hf1 ⊢
          rw [hf1]
          exact move_restore_two L.fadhes L.badhes L.rescue 0 fp.gitems
        | true =>
          rw [if_pos rfl] at hf1 ⊢
          have hres := gitems_dnp_roundtrip L hs1 hs2 hs3 hs4 fp.gitems
            ((if (cross_fp L fp).2.1 = true then cross_segs L.ffab else []) ++
              (if (cross_fp L fp).2.2 = true then cross_segs L.bfab else []))
            f1.gitems
            (move_two L.fadhes L.badhes L.rescue 0 f1.gitems).1
            ((move_two L.fadhes L.badhes L.rescue 0 f1.gitems).1.take
              ((move_two L.fadhes L.badhes L.rescue 0 f1.gitems).1.length -
                ((cond (cross_fp L fp).2.1 2 0) + (cond (cross_fp L fp).2.2 2 0))))
            (move_two L.fadhes L.badhes L.rescue 0 f1.gitems).2.1
            (move_two L.fadhes L.badhes L.rescue 0 f1.gitems).2.2
            (cross_fp L fp).2.1 (cross_fp L fp).2.2 true rfl
            (by rw [hf1, cross_fp_fst_gitems, List.append_assoc])
            (by rw [if_pos rfl]) rfl rfl rfl
          rw [if_pos rfl] at hres
          exact hres
      · have hg2 : v1.gitems = if cF = true then
            f1.gitems.take (f1.gitems.length -
              ((cond (cross_fp L fp).2.1 2 0) + (cond (cross_fp L fp).2.2 2 0)))
            else f1.gitems := by
          have hf2g : u0.gitems = f1.gitems := by
            rw [hu0gitems, hf2]
            split
            · rw [paste_fp_fst_gitems, if_neg had]
            · rfl
          rw [hv1]
          split
          · rw [uncross_fp_gitems, hf2g]
          · rw [hf2g]
        rw [if_neg had, hg2]
        cases cF with
        | false =>
          simp only [Bool.false_eq_true, if_false] at hf1 ⊢
          rw [hf1]
        | true =>
          rw [if_pos rfl] at hf1 ⊢
          rw [hf1, cross_fp_fst_gitems, List.append_assoc, List.length_append,
            cross_tail_length L (cross_fp L fp).2.1 (cross_fp L fp).2.2,
            Nat.add_sub_cancel]
          exact List.take_left' rfl
    · rw [hw, update_models_pads, hv3, update_models_pads, hv2,
        paste_restore_fp_pads, aspect_fp_pads]
      by_cases hsp : G.remove_solder_paste_for_dnp = true
      · have hPP : P = true := by rw [hP, hsp, Bool.true_or]
        rw [if_pos hsp, if_pos hPP, paste_fp_snd_old, hv1pads, hf2, if_pos hPP,
          paste_fp_fst_pads, if_pos hsp, hf1pads]
        exact pads_restore_roundtrip L fp.pads
      · rw [if_neg hsp, hv1pads, hf2]
        by_cases hPP : P = true
        · rw [if_pos hPP, paste_fp_fst_pads, if_neg hsp, pads_flag_false_id,
            hf1pads]
        · rw [if_neg hPP, hf1pads]
    · rw [hw, update_models_models, hv3, update_models_models, hv2,
        paste_restore_fp_models, hv1models, rename_models_fp_nil,
        List.append_nil, hrem, List.reverse_reverse, hf4, aspect_fp_models,
        aspect_fp_models, hscan2, hf2models]
  rw [hwaf]
  exact aspect_fp_roundtrip vname mv fp

theorem cross_list_refs (L : LayerIds) (ch : String → Option Component) :
    ∀ fps : List Footprint,
      (cross_list L ch fps).1.map (fun q => q.ref) =
        fps.map (fun q => q.ref) := by
  intro fps
  induction fps with
  | nil => rfl
  | cons fp rest ih =>
    cases hb : dnp_selected ch fp with
    | true =>
      rw [cross_list_cons_pos L ch fp rest hb]
      simp only [List.map_cons, cross_fp_fst_ref, ih]
    | false =>
      rw [cross_list_cons_neg L ch fp rest hb]
      simp only [List.map_cons, ih]

theorem paste_list_refs (G : Globals) (L : LayerIds)
    (ch : String → Option Component) :
    ∀ fps : List Footprint,
      (paste_list G L ch fps).1.map (fun q => q.ref) =
        fps.map (fun q => q.ref) := by
  intro fps
  induction fps with
  | nil => rfl
  | cons fp rest ih =>
    cases hb : dnp_selected ch fp with
    | true =>
      rw [paste_list_cons_pos G L ch fp rest hb]
      simp only [List.map_cons, paste_fp_fst_ref, ih]
    | false =>
      rw [paste_list_cons_neg G L ch fp rest hb]
      simp only [List.map_cons, ih]

theorem fab_list_refs (L : LayerIds) (ch : String → Option Component) :
    ∀ fps : List Footprint,
      (fab_list L ch fps).1.map (fun q => q.ref) =
        fps.map (fun q => q.ref) := by
  intro fps
  induction fps with
  | nil => rfl
  | cons fp rest ih =>
    cases hb : excluded_selected ch fp with
    | true =>
      rw [fab_list_cons_pos L ch fp rest hb]
      simp only [List.map_cons, fab_fp_fst_ref, ih]
    | false =>
      rw [fab_list_cons_neg L ch fp rest hb]
      simp only [List.map_cons, ih]

theorem cross_if_refs (L : LayerIds) (ch : String → Option Component)
    (c : Prop) [Decidable c] (fps t : List Footprint) (x y : List Bool)
    (h : (if c then cross_list L ch fps else (fps, [], [])) = (t, x, y)) :
    t.map (fun q => q.ref) = fps.map (fun q => q.ref) := by
  split at h
  · have h1 := congrArg (fun z : List Footprint × List Bool × List Bool => z.1) h
    simp only [] at h1
    rw [← h1, cross_list_refs]
  · have h1 := congrArg (fun z : List Footprint × List Bool × List Bool => z.1) h
    simp only [] at h1
    rw [← h1]

theorem paste_if_refs (G : Globals) (L : LayerIds)
    (ch : String → Option Component) (c : Prop) [Decidable c]
    (fps t : List Footprint) (x : List (List (List Nat)))
    (y : List (List Nat × List Nat)) (z : List String)
    (h : (if c then paste_list G L ch fps else (fps, [], [], [])) =
      (t, x, y, z)) :
    t.map (fun q => q.ref) = fps.map (fun q => q.ref) := by
  split at h
  · have h1 := congrArg
      (fun w : List Footprint × List (List (List Nat)) ×
        List (List Nat × List Nat) × List String => w.1) h
    simp only [] at h1
    rw [← h1, paste_list_refs]
  · have h1 := congrArg
      (fun w : List Footprint × List (List (List Nat)) ×
        List (List Nat × List Nat) × List String => w.1) h
    simp only [] at h1
    rw [← h1]

theorem fab_if_refs (L : LayerIds) (ch : String → Option Component)
    (c : Prop) [Decidable c] (fps t : List Footprint)
    (x : List (List Nat × List Nat))
    (h : (if c then fab_list L ch fps else (fps, [])) = (t, x)) :
    t.map (fun q => q.ref) = fps.map (fun q => q.ref) := by
  split at h
  · have h1 := congrArg
      (fun w : List Footprint × List (List Nat × List Nat) => w.1) h
    simp only [] at h1
    rw [← h1, fab_list_refs]
  · have h1 := congrArg
      (fun w : List Footprint × List (List Nat × List Nat) => w.1) h
    simp only [] at h1
    rw [← h1]

/-- The induction statement for the C2 round trip at the footprint-list
level: whenever the filter stages (cross, paste/adhesive, hide-excluded fab,
aspect disable, model removal/replacement) succeed on `fps`, the restore
stages (uncross, paste/adhesive restore, fab restore, rename undo, model
restore, aspect enable), fed with the recorded undo data and a rename map
`reps0` that agrees with the recorded one on the references of `fps`,
reproduce `fps` exactly. -/
def FilterRestores (G : Globals) (L : LayerIds) (vname : String)
    (mv : String → Bool) (ch : String → Option Component) (hide : Bool)
    (reps0 : List (String × List String)) (fps : List Footprint) : Prop :=
  ∀ (fps1 fps2 fps3 : List Footprint) (cf cb : List Bool)
    (ols : List (List (List Nat))) (ads fabs : List (List Nat × List Nat))
    (warns : List String)
    (out : List Footprint × List (List Model3D) × List (String × List String)),
    (∀ r, r ∈ fps.map (fun fp => fp.ref) →
      lookup_rep reps0 r = lookup_rep out.2.2 r) →
    (if G.cross_footprints_for_dnp = true then cross_list L ch fps
      else (fps, [], [])) = (fps1, cf, cb) →
    (if G.remove_solder_paste_for_dnp = true ∨ G.remove_adhesive_for_dnp = true
      then paste_list G L ch fps1 else (fps1, [], [], [])) = (fps2, ols, ads, warns) →
    (if hide = true then fab_list L ch fps2 else (fps2, [])) = (fps3, fabs) →
    remove_3D_list G ch (fps3.map (aspect_fp vname mv false)) = .ok out →
    ((restore_3D_list ch
        (((if hide = true then
            fab_restore_list L ch
              (paste_restore_list G L ch
                (if G.cross_footprints_for_dnp = true then
                  uncross_list ch out.1 cf cb else out.1) ols ads) fabs
          else
            paste_restore_list G L ch
              (if G.cross_footprints_for_dnp = true then
                uncross_list ch out.1 cf cb else out.1) ols ads)).map
          (fun fp2 => { fp2 with
            models := rename_models_fp ([]) (lookup_rep reps0 fp2.ref) fp2.models }))
        out.2.1).map (aspect_fp vname mv true)) = fps

theorem filter_restores_nil (G : Globals) (L : LayerIds) (vname : String)
    (mv : String → Bool) (ch : String → Option Component) (hide : Bool)
    (reps0 : List (String × List String)) :
    FilterRestores G L vname mv ch hide reps0 [] := by
  intro fps1 fps2 fps3 cf cb ols ads fabs warns out hag h1 h2 h3 h4
  have e1 : fps1 = [] := by
    split at h1
    · simp only [cross_list, Prod.mk.injEq] at h1
      exact h1.1.symm
    · simp only [Prod.mk.injEq] at h1
      exact h1.1.symm
  subst e1
  have e2 : fps2 = [] := by
    split at h2
    · simp only [paste_list, Prod.mk.injEq] at h2
      exact h2.1.symm
    · simp only [Prod.mk.injEq] at h2
      exact h2.1.symm
  subst e2
  have e3 : fps3 = [] := by
    split at h3
    · simp only [fab_list, Prod.mk.injEq] at h3
      exact h3.1.symm
    · simp only [Prod.mk.injEq] at h3
      exact h3.1.symm
  subst e3
  have e4 : out = ([], [], []) := by
    simp only [List.map_nil, remove_3D_list, Except.ok.injEq] at h4
    exact h4.symm
  subst e4
  by_cases hh : hide = true <;> by_cases hc : G.cross_footprints_for_dnp = true <;>
    simp [hh, hc, uncross_list, paste_restore_list, fab_restore_list,
      restore_3D_list]

/-- Cons step of the round trip for a DNP-selected head footprint. -/
theorem filter_restores_cons_dnp (G : Globals) (L : LayerIds) (vname : String)
    (mv : String → Bool) (ch : String → Option Component) (hide : Bool)
    (reps0 : List (String × List String))
    (hs1 : ¬L.ffab = L.fadhes) (hs2 : ¬L.ffab = L.badhes)
    (hs3 : ¬L.bfab = L.fadhes) (hs4 : ¬L.bfab = L.badhes)
    (fp : Footprint) (rest : List Footprint)
    (hdnp : dnp_selected ch fp = true)
    (htail : FilterRestores G L vname mv ch hide reps0 rest) :
    FilterRestores G L vname mv ch hide reps0 (fp :: rest) := by
  intro fps1 fps2 fps3 cf cb ols ads fabs warns out hag h1 h2 h3 h4
  obtain ⟨f1, hf1⟩ : ∃ x, x =
      if G.cross_footprints_for_dnp = true then (cross_fp L fp).1 else fp :=
    ⟨_, rfl⟩
  obtain ⟨t1, cf1, cb1, hfps1, hcfh, hcbh, h1t⟩ :
      ∃ t1 cf1 cb1, fps1 = f1 :: t1 ∧
        cf = (if G.cross_footprints_for_dnp = true then
          (cross_fp L fp).2.1 :: cf1 else cf1) ∧
        cb = (if G.cross_footprints_for_dnp = true then
          (cross_fp L fp).2.2 :: cb1 else cb1) ∧
        (if G.cross_footprints_for_dnp = true then cross_list L ch rest
          else (rest, [], [])) = (t1, cf1, cb1) := by
    by_cases hcF : G.cross_footprints_for_dnp = true
    · rw [if_pos hcF] at h1
      rw [cross_list_cons_pos L ch fp rest hdnp] at h1
      simp only [Prod.mk.injEq] at h1
      refine ⟨(cross_list L ch rest).1, (cross_list L ch rest).2.1,
        (cross_list L ch rest).2.2, ?_, ?_, ?_, ?_⟩
      · rw [hf1]
        simp only [if_pos hcF]
        rw [← h1.1]
      · simp only [if_pos hcF]
        rw [← h1.2.1]
      · simp only [if_pos hcF]
        rw [← h1.2.2]
      · simp only [if_pos hcF]
    · rw [if_neg hcF] at h1
      simp only [Prod.mk.injEq] at h1
      refine ⟨rest, cf, cb, ?_, ?_, ?_, ?_⟩
      · rw [hf1]
        simp only [if_neg hcF]
        rw [← h1.1]
      · simp only [if_neg hcF]
      · simp only [if_neg hcF]
      · simp only [if_neg hcF]
        rw [← h1.2.1, ← h1.2.2]
  have hf1ref : f1.ref = fp.ref := by
    rw [hf1]
    split
    · exact cross_fp_fst_ref L fp
    · rfl
  have hdnp1 : dnp_selected ch f1 = true := by
    rw [dnp_selected_congr ch fp f1 hf1ref, hdnp]
  obtain ⟨f2, hf2⟩ : ∃ x, x =
      if (G.remove_solder_paste_for_dnp || G.remove_adhesive_for_dnp) = true
      then (paste_fp G L f1).1 else f1 := ⟨_, rfl⟩
  obtain ⟨t2, ols1, ads1, warns1, hfps2, holsh, hadsh, h2t, h2nil⟩ :
      ∃ t2 ols1 ads1 warns1, fps2 = f2 :: t2 ∧
        ols = (if (G.remove_solder_paste_for_dnp ||
          G.remove_adhesive_for_dnp) = true then
          (paste_fp G L f1).2.1 :: ols1 else ols1) ∧
        ads = (if (G.remove_solder_paste_for_dnp ||
          G.remove_adhesive_for_dnp) = true then
          (paste_fp G L f1).2.2.1 :: ads1 else ads1) ∧
        (if G.remove_solder_paste_for_dnp = true ∨
          G.remove_adhesive_for_dnp = true then paste_list G L ch t1
          else (t1, [], [], [])) = (t2, ols1, ads1, warns1) ∧
        (¬(G.remove_solder_paste_for_dnp = true ∨
          G.remove_adhesive_for_dnp = true) → ols1 = [] ∧ ads1 = []) := by
    rw [hfps1] at h2
    by_cases hQ : G.remove_solder_paste_for_dnp = true ∨
      G.remove_adhesive_for_dnp = true
    · have hPB : (G.remove_solder_paste_for_dnp ||
          G.remove_adhesive_for_dnp) = true := by
        rw [Bool.or_eq_true]
        exact hQ
      rw [if_pos hQ] at h2
      rw [paste_list_cons_pos G L ch f1 t1 hdnp1] at h2
      simp only [Prod.mk.injEq] at h2
      refine ⟨(paste_list G L ch t1).1, (paste_list G L ch t1).2.1,
        (paste_list G L ch t1).2.2.1, (paste_list G L ch t1).2.2.2,
        ?_, ?_, ?_, ?_, ?_⟩
      · rw [hf2]
        simp only [if_pos hPB]
        rw [← h2.1]
      · simp only [if_pos hPB]
        rw [← h2.2.1]
      · simp only [if_pos hPB]
        rw [← h2.2.2.1]
      · simp only [if_pos hQ]
      · intro hcon
        exact absurd hQ hcon
    · have hPB : (G.remove_solder_paste_for_dnp ||
          G.remove_adhesive_for_dnp) = false := by
        cases hb : (G.remove_solder_paste_for_dnp ||
          G.remove_adhesive_for_dnp) with
        | false => rfl
        | true =>
          rw [Bool.or_eq_true] at hb
          exact absurd hb hQ
      have hPBne : ¬((G.remove_solder_paste_for_dnp ||
          G.remove_adhesive_for_dnp) = true) := by
        rw [hPB]
        exact Bool.false_ne_true
      rw [if_neg hQ] at h2
      simp only [Prod.mk.injEq] at h2
      refine ⟨t1, [], [], [], ?_, ?_, ?_, ?_, ?_⟩
      · rw [hf2]
        simp only [if_neg hPBne]
        rw [← h2.1]
      · simp only [if_neg hPBne]
        exact h2.2.1.symm
      · simp only [if_neg hPBne]
        exact h2.2.2.1.symm
      · simp only [if_neg hQ]
      · intro h'
        exact ⟨rfl, rfl⟩
  have hf2ref : f2.ref = fp.ref := by
    rw [hf2]
    split
    · rw [paste_fp_fst_ref, hf1ref]
    · exact hf1ref
  have hdnp2 : dnp_selected ch f2 = true := by
    rw [dnp_selected_congr ch fp f2 hf2ref, hdnp]
  have hexc2 : excluded_selected ch f2 = false := dnp_not_excluded ch f2 hdnp2
  obtain ⟨t3, hfps3, h3t⟩ :
      ∃ t3, fps3 = f2 :: t3 ∧
        (if hide = true then fab_list L ch t2 else (t2, [])) = (t3, fabs) := by
    rw [hfps2] at h3
    by_cases hH : hide = true
    · rw [if_pos hH] at h3
      rw [fab_list_cons_neg L ch f2 t2 hexc2] at h3
      simp only [Prod.mk.injEq] at h3
      refine ⟨(fab_list L ch t2).1, h3.1.symm, ?_⟩
      simp only [if_pos hH]
      rw [← h3.2]
    · rw [if_neg hH] at h3
      simp only [Prod.mk.injEq] at h3
      refine ⟨t2, h3.1.symm, ?_⟩
      simp only [if_neg hH]
      rw [← h3.2]
  rw [hfps3, List.map_cons] at h4
  obtain ⟨f4, hf4⟩ : ∃ x, x = aspect_fp vname mv false f2 := ⟨_, rfl⟩
  rw [← hf4] at h4
  obtain ⟨t, h4t, hbr⟩ := remove_3D_list_cons G ch f4
    (t3.map (aspect_fp vname mv false)) out h4
  have hf4ref : f4.ref = fp.ref := by
    rw [hf4, aspect_fp_ref, hf2ref]
  have hcc : ∀ c, ch fp.ref = some c → (c.included && !c.fitted) = true := by
    intro c hc
    unfold dnp_selected at hdnp
    rw [hc] at hdnp
    exact hdnp
  rcases hbr with ⟨c, hc, hcond, hout⟩ | ⟨c, q, hc, hcond, hnm, hrep, hout⟩ |
    ⟨hcn, hout⟩
  · obtain ⟨u0, hu0⟩ : ∃ x, x = ({ f4 with models := [] } : Footprint) :=
      ⟨_, rfl⟩
    obtain ⟨rem, hrem⟩ : ∃ x, x = f4.models.reverse := ⟨_, rfl⟩
    rw [← hu0, ← hrem] at hout
    have ho1 : out.1 = u0 :: t.1 := by rw [hout]
    have ho21 : out.2.1 = rem :: t.2.1 := by rw [hout]
    have ho22 : out.2.2 = t.2.2 := by rw [hout]
    have hu0ref : u0.ref = fp.ref := by
      rw [hu0, update_models_ref, hf4ref]
    have hdnpu0 : dnp_selected ch u0 = true := by
      rw [dnp_selected_congr ch fp u0 hu0ref, hdnp]
    obtain ⟨v1, hv1⟩ : ∃ x, x =
        if G.cross_footprints_for_dnp = true then
          uncross_fp (cross_fp L fp).2.1 (cross_fp L fp).2.2 u0 else u0 :=
      ⟨_, rfl⟩
    have hv1ref : v1.ref = fp.ref := by
      rw [hv1]
      split
      · rw [uncross_fp_ref, hu0ref]
      · exact hu0ref
    have hdnpv1 : dnp_selected ch v1 = true := by
      rw [dnp_selected_congr ch fp v1 hv1ref, hdnp]
    obtain ⟨v2, hv2⟩ : ∃ x, x = paste_restore_fp G L v1
        (if (G.remove_solder_paste_for_dnp ||
          G.remove_adhesive_for_dnp) = true then (paste_fp G L f1).2.1 else [])
        (if (G.remove_solder_paste_for_dnp ||
          G.remove_adhesive_for_dnp) = true then (paste_fp G L f1).2.2.1
          else ([], [])) := ⟨_, rfl⟩
    have hv2ref : v2.ref = fp.ref := by
      rw [hv2, paste_restore_fp_ref, hv1ref]
    have hexcv2 : excluded_selected ch v2 = false := by
      rw [excluded_selected_congr ch fp v2 hv2ref]
      exact dnp_not_excluded ch fp hdnp
    obtain ⟨v3, hv3⟩ : ∃ x, x = ({ v2 with
        models := rename_models_fp ([]) (lookup_rep reps0 v2.ref) v2.models } :
        Footprint) := ⟨_, rfl⟩
    have hv3ref : v3.ref = fp.ref := by
      rw [hv3, update_models_ref, hv2ref]
    have hdnpv3 : dnp_selected ch v3 = true := by
      rw [dnp_selected_congr ch fp v3 hv3ref, hdnp]
    obtain ⟨w, hw⟩ : ∃ x, x = ({ v3 with
        models := rem.reverse ++ v3.models } : Footprint) := ⟨_, rfl⟩
    rw [ho1, ho21]
    have e_un : (if G.cross_footprints_for_dnp = true then
        uncross_list ch (u0 :: t.1) cf cb else u0 :: t.1) =
        v1 :: (if G.cross_footprints_for_dnp = true then
          uncross_list ch t.1 cf1 cb1 else t.1) := by
      by_cases hcF : G.cross_footprints_for_dnp = true
      · rw [hcfh, hcbh]
        simp only [if_pos hcF]
        rw [uncross_list_cons_pos ch u0 t.1 ((cross_fp L fp).2.1 :: cf1)
          ((cross_fp L fp).2.2 :: cb1) hdnpu0]
        simp only [List.headD_cons, List.tail_cons]
        rw [hv1]
        simp only [if_pos hcF]
      · simp only [if_neg hcF]
        rw [hv1]
        simp only [if_neg hcF]
    rw [e_un]
    have hols_hd : ols.headD [] =
        (if (G.remove_solder_paste_for_dnp ||
          G.remove_adhesive_for_dnp) = true then (paste_fp G L f1).2.1
          else []) ∧ ols.tail = ols1 := by
      by_cases hQ : G.remove_solder_paste_for_dnp = true ∨
        G.remove_adhesive_for_dnp = true
      · have hPB : (G.remove_solder_paste_for_dnp ||
            G.remove_adhesive_for_dnp) = true := by
          rw [Bool.or_eq_true]
          exact hQ
        constructor
        · rw [holsh]
          simp only [if_pos hPB, List.headD_cons]
        · rw [holsh]
          simp only [if_pos hPB, List.tail_cons]
      · have hPBne : ¬((G.remove_solder_paste_for_dnp ||
            G.remove_adhesive_for_dnp) = true) := by
          intro hb
          rw [Bool.or_eq_true] at hb
          exact hQ hb
        have hnils := h2nil hQ
        constructor
        · rw [holsh]
          simp only [if_neg hPBne]
          rw [hnils.1]
          rfl
        · rw [holsh]
          simp only [if_neg hPBne]
          rw [hnils.1]
          rfl
    have hads_hd : ads.headD ([], []) =
        (if (G.remove_solder_paste_for_dnp ||
          G.remove_adhesive_for_dnp) = true then (paste_fp G L f1).2.2.1
          else ([], [])) ∧ ads.tail = ads1 := by
      by_cases hQ : G.remove_solder_paste_for_dnp = true ∨
        G.remove_adhesive_for_dnp = true
      · have hPB : (G.remove_solder_paste_for_dnp ||
            G.remove_adhesive_for_dnp) = true := by
          rw [Bool.or_eq_true]
          exact hQ
        constructor
        · rw [hadsh]
          simp only [if_pos hPB, List.headD_cons]
        · rw [hadsh]
          simp only [if_pos hPB, List.tail_cons]
      · have hPBne : ¬((G.remove_solder_paste_for_dnp ||
            G.remove_adhesive_for_dnp) = true) := by
          intro hb
          rw [Bool.or_eq_true] at hb
          exact hQ hb
        have hnils := h2nil hQ
        constructor
        · rw [hadsh]
          simp only [if_neg hPBne]
          rw [hnils.2]
          rfl
        · rw [hadsh]
          simp only [if_neg hPBne]
          rw [hnils.2]
          rfl
    have e_pr : paste_restore_list G L ch
        (v1 :: (if G.cross_footprints_for_dnp = true then
          uncross_list ch t.1 cf1 cb1 else t.1)) ols ads =
        v2 :: paste_restore_list G L ch
          (if G.cross_footprints_for_dnp = true then
            uncross_list ch t.1 cf1 cb1 else t.1) ols1 ads1 := by
      rw [paste_restore_list_cons_pos G L ch v1 _ ols ads hdnpv1,
        hols_hd.1, hols_hd.2, hads_hd.1, hads_hd.2, hv2]
    rw [e_pr]
    have e_fr : (if hide = true then
        fab_restore_list L ch (v2 :: paste_restore_list G L ch
          (if G.cross_footprints_for_dnp = true then
            uncross_list ch t.1 cf1 cb1 else t.1) ols1 ads1) fabs
        else v2 :: paste_restore_list G L ch
          (if G.cross_footprints_for_dnp = true then
            uncross_list ch t.1 cf1 cb1 else t.1) ols1 ads1) =
        v2 :: (if hide = true then
          fab_restore_list L ch (paste_restore_list G L ch
            (if G.cross_footprints_for_dnp = true then
              uncross_list ch t.1 cf1 cb1 else t.1) ols1 ads1) fabs
          else paste_restore_list G L ch
            (if G.cross_footprints_for_dnp = true then
              uncross_list ch t.1 cf1 cb1 else t.1) ols1 ads1) := by
      by_cases hH : hide = true
      · simp only [if_pos hH]
        rw [fab_restore_list_cons_neg L ch v2 _ fabs hexcv2]
      · simp only [if_neg hH]
    rw [e_fr]
    simp only [List.map_cons]
    rw [← hv3]
    rw [restore_3D_list_cons_pos ch v3 _ (rem :: t.2.1) hdnpv3]
    simp only [List.headD_cons, List.tail_cons]
    rw [← hw]
    simp only [List.map_cons]
    have hhead : aspect_fp vname mv true w = fp :=
      dnp_head_roundtrip G L vname mv hs1 hs2 hs3 hs4 fp
        G.cross_footprints_for_dnp
        (G.remove_solder_paste_for_dnp || G.remove_adhesive_for_dnp) rfl
        f1 f2 f4 u0 v1 v2 v3 w (lookup_rep reps0 v2.ref) rem
        hf1 hf2 hf4 hu0 hrem hv1 hv2 hv3 hw
    rw [hhead]
    have hag2 : ∀ r, r ∈ rest.map (fun q => q.ref) →
        lookup_rep reps0 r = lookup_rep t.2.2 r := by
      intro r hr
      have h := hag r (by
        rw [List.map_cons]
        exact List.mem_cons_of_mem _ hr)
      rw [ho22] at h
      exact h
    exact congrArg (List.cons fp)
      (htail t1 t2 t3 cf1 cb1 ols1 ads1 fabs warns1 t hag2 h1t h2t h3t h4t)
  · rw [hf4ref] at hc
    rw [hcc c hc] at hcond
    exact Bool.noConfusion hcond
  · rcases hcn with hcn | ⟨c, hc, hcond, _⟩
    · rw [hf4ref] at hcn
      unfold dnp_selected at hdnp
      rw [hcn] at hdnp
      exact Bool.noConfusion hdnp
    · rw [hf4ref] at hc
      rw [hcc c hc] at hcond
      exact Bool.noConfusion hcond

/-- Cons step of the round trip for a head footprint that is not
DNP-selected (excluded, fitted or unknown to the component table). -/
theorem filter_restores_cons_nondnp (G : Globals) (L : LayerIds)
    (vname : String) (mv : String → Bool) (ch : String → Option Component)
    (hide : Bool) (reps0 : List (String × List String))
    (hch : ∀ r c, ch r = some c → c.ref = r)
    (fp : Footprint) (rest : List Footprint)
    (hdnp : dnp_selected ch fp = false)
    (hnotin : ¬fp.ref ∈ rest.map (fun q => q.ref))
    (htail : FilterRestores G L vname mv ch hide reps0 rest) :
    FilterRestores G L vname mv ch hide reps0 (fp :: rest) := by
  intro fps1 fps2 fps3 cf cb ols ads fabs warns out hag h1 h2 h3 h4
  obtain ⟨t1, hfps1, h1t⟩ :
      ∃ t1, fps1 = fp :: t1 ∧
        (if G.cross_footprints_for_dnp = true then cross_list L ch rest
          else (rest, [], [])) = (t1, cf, cb) := by
    by_cases hcF : G.cross_footprints_for_dnp = true
    · rw [if_pos hcF] at h1
      rw [cross_list_cons_neg L ch fp rest hdnp] at h1
      simp only [Prod.mk.injEq] at h1
      refine ⟨(cross_list L ch rest).1, h1.1.symm, ?_⟩
      simp only [if_pos hcF]
      rw [← h1.2.1, ← h1.2.2]
    · rw [if_neg hcF] at h1
      simp only [Prod.mk.injEq] at h1
      refine ⟨rest, h1.1.symm, ?_⟩
      simp only [if_neg hcF]
      rw [← h1.2.1, ← h1.2.2]
  obtain ⟨t2, warns1, hfps2, h2t⟩ :
      ∃ t2 warns1, fps2 = fp :: t2 ∧
        (if G.remove_solder_paste_for_dnp = true ∨
          G.remove_adhesive_for_dnp = true then paste_list G L ch t1
          else (t1, [], [], [])) = (t2, ols, ads, warns1) := by
    rw [hfps1] at h2
    by_cases hQ : G.remove_solder_paste_for_dnp = true ∨
      G.remove_adhesive_for_dnp = true
    · rw [if_pos hQ] at h2
      rw [paste_list_cons_neg G L ch fp t1 hdnp] at h2
      simp only [Prod.mk.injEq] at h2
      refine ⟨(paste_list G L ch t1).1, (paste_list G L ch t1).2.2.2,
        h2.1.symm, ?_⟩
      simp only [if_pos hQ]
      rw [← h2.2.1, ← h2.2.2.1]
    · rw [if_neg hQ] at h2
      simp only [Prod.mk.injEq] at h2
      refine ⟨t1, [], h2.1.symm, ?_⟩
      simp only [if_neg hQ]
      rw [← h2.2.1, ← h2.2.2.1]
  obtain ⟨xf, hxf⟩ : ∃ x, x = (hide && excluded_selected ch fp) := ⟨_, rfl⟩
  obtain ⟨f3, hf3⟩ : ∃ x, x = if xf = true then (fab_fp L fp).1 else fp :=
    ⟨_, rfl⟩
  obtain ⟨t3, fabs1, hfps3, hfabsh, h3t⟩ :
      ∃ t3 fabs1, fps3 = f3 :: t3 ∧
        fabs = (if xf = true then
          ((fab_fp L fp).2.1, (fab_fp L fp).2.2) :: fabs1 else fabs1) ∧
        (if hide = true then fab_list L ch t2 else (t2, [])) = (t3, fabs1) := by
    rw [hfps2] at h3
    by_cases hH : hide = true
    · rw [if_pos hH] at h3
      cases hexc : excluded_selected ch fp with
      | true =>
        have hxft : xf = true := by
            rw [hxf, hH, hexc]
            rfl
        rw [fab_list_cons_pos L ch fp t2 hexc] at h3
        simp only [Prod.mk.injEq] at h3
        refine ⟨(fab_list L ch t2).1, (fab_list L ch t2).2, ?_, ?_, ?_⟩
        · rw [hf3, if_pos hxft, ← h3.1]
        · rw [if_pos hxft, ← h3.2]
        · simp only [if_pos hH]
      | false =>
        have hxff : ¬(xf = true) := by
          rw [hxf, hexc, Bool.and_false]
          exact Bool.false_ne_true
        rw [fab_list_cons_neg L ch fp t2 hexc] at h3
        simp only [Prod.mk.injEq] at h3
        refine ⟨(fab_list L ch t2).1, (fab_list L ch t2).2, ?_, ?_, ?_⟩
        · rw [hf3, if_neg hxff, ← h3.1]
        · rw [if_neg hxff, ← h3.2]
        · simp only [if_pos hH]
    · have hHf : hide = false := by
        cases hb : hide with
        | false => rfl
        | true => exact absurd hb hH
      have hxff : ¬(xf = true) := by
        rw [hxf, hHf, Bool.false_and]
        exact Bool.false_ne_true
      rw [if_neg hH] at h3
      simp only [Prod.mk.injEq] at h3
      refine ⟨t2, fabs, ?_, ?_, ?_⟩
      · rw [hf3, if_neg hxff, ← h3.1]
      · rw [if_neg hxff]
      · simp only [if_neg hH]
        rw [← h3.2]
  rw [hfps3, List.map_cons] at h4
  obtain ⟨f4, hf4⟩ : ∃ x, x = aspect_fp vname mv false f3 := ⟨_, rfl⟩
  rw [← hf4] at h4
  obtain ⟨t, h4t, hbr⟩ := remove_3D_list_cons G ch f4
    (t3.map (aspect_fp vname mv false)) out h4
  have hf3ref : f3.ref = fp.ref := by
    rw [hf3]
    split
    · exact fab_fp_fst_ref L fp
    · rfl
  have hf4ref : f4.ref = fp.ref := by
    rw [hf4, aspect_fp_ref, hf3ref]
  have hncond : ∀ c, ch fp.ref = some c → (c.included && !c.fitted) = false := by
    intro c hc
    unfold dnp_selected at hdnp
    rw [hc] at hdnp
    exact hdnp
  have hrefs3 : t3.map (fun q => q.ref) = rest.map (fun q => q.ref) := by
    rw [fab_if_refs L ch (hide = true) t2 t3 fabs1 h3t,
      paste_if_refs G L ch _ t1 t2 ols ads warns1 h2t,
      cross_if_refs L ch _ rest t1 cf cb h1t]
  have hkeys : ∀ e ∈ t.2.2, ¬e.1 = fp.ref := by
    intro e he heq
    have hk := remove_3D_list_keys G ch hch (t3.map (aspect_fp vname mv false))
      t h4t e he
    have hmm : (t3.map (aspect_fp vname mv false)).map (fun q => q.ref) =
        t3.map (fun q => q.ref) := by
      rw [List.map_map]
      exact List.map_congr_left (fun a _ => aspect_fp_ref vname mv false a)
    rw [hmm] at hk
    rw [hrefs3] at hk
    rw [heq] at hk
    exact hnotin hk
  rcases hbr with ⟨c, hc, hcond, hout⟩ | ⟨c, q, hc, hcond, hnm, hrep, hout⟩ |
    ⟨hcn, hout⟩
  · rw [hf4ref] at hc
    rw [hncond c hc] at hcond
    exact Bool.noConfusion hcond
  · -- replacement branch
    rw [hf4ref] at hc
    have hcref : c.ref = fp.ref := hch fp.ref c hc
    rw [hcref] at hout
    obtain ⟨u0, hu0⟩ : ∃ x, x = ({ f4 with models := q.1 } : Footprint) :=
      ⟨_, rfl⟩
    rw [← hu0] at hout
    have ho1 : out.1 = u0 :: t.1 := by rw [hout]
    have ho21 : out.2.1 = t.2.1 := by rw [hout]
    have ho22 : out.2.2 = (fp.ref, q.2) :: t.2.2 := by rw [hout]
    have hu0ref : u0.ref = fp.ref := by rw [hu0, update_models_ref, hf4ref]
    have hdnpu0 : dnp_selected ch u0 = false := by
      rw [dnp_selected_congr ch fp u0 hu0ref, hdnp]
    have hexcu0 : excluded_selected ch u0 = excluded_selected ch fp :=
      excluded_selected_congr ch fp u0 hu0ref
    obtain ⟨v2, hv2⟩ : ∃ x, x = if xf = true then
        ({ u0 with
          gitems := restore_two L.ffab L.bfab (fab_fp L fp).2.1 (fab_fp L fp).2.2 0 u0.gitems } :
          Footprint)
        else u0 := ⟨_, rfl⟩
    have hv2ref : v2.ref = fp.ref := by
      rw [hv2]
      split
      · rw [update_gitems_ref, hu0ref]
      · exact hu0ref
    rw [ho1, ho21]
    have e_un : (if G.cross_footprints_for_dnp = true then
        uncross_list ch (u0 :: t.1) cf cb else u0 :: t.1) =
        u0 :: (if G.cross_footprints_for_dnp = true then
          uncross_list ch t.1 cf cb else t.1) := by
      by_cases hcF : G.cross_footprints_for_dnp = true
      · simp only [if_pos hcF]
        rw [uncross_list_cons_neg ch u0 t.1 cf cb hdnpu0]
      · simp only [if_neg hcF]
    rw [e_un]
    rw [paste_restore_list_cons_neg G L ch u0 _ ols ads hdnpu0]
    have e_fr : (if hide = true then
        fab_restore_list L ch (u0 :: paste_restore_list G L ch
          (if G.cross_footprints_for_dnp = true then
            uncross_list ch t.1 cf cb else t.1) ols ads) fabs
        else u0 :: paste_restore_list G L ch
          (if G.cross_footprints_for_dnp = true then
            uncross_list ch t.1 cf cb else t.1) ols ads) =
        v2 :: (if hide = true then
          fab_restore_list L ch (paste_restore_list G L ch
            (if G.cross_footprints_for_dnp = true then
              uncross_list ch t.1 cf cb else t.1) ols ads) fabs1
          else paste_restore_list G L ch
            (if G.cross_footprints_for_dnp = true then
              uncross_list ch t.1 cf cb else t.1) ols ads) := by
      by_cases hH : hide = true
      · simp only [if_pos hH]
        cases hexc : excluded_selected ch fp with
        | true =>
          have hxft : xf = true := by
            rw [hxf, hH, hexc]
            rfl
          rw [hfabsh, if_pos hxft]
          rw [fab_restore_list_cons_pos L ch u0 _ _
            (by rw [hexcu0]; exact hexc)]
          simp only [List.headD_cons, List.tail_cons]
          rw [hv2, if_pos hxft]
        | false =>
          have hxff : ¬(xf = true) := by
            rw [hxf, hexc, Bool.and_false]
            exact Bool.false_ne_true
          rw [hfabsh, if_neg hxff]
          rw [fab_restore_list_cons_neg L ch u0 _ fabs1
            (by rw [hexcu0]; exact hexc)]
          rw [hv2, if_neg hxff]
      · have hHf : hide = false := by
          cases hb : hide with
          | false => rfl
          | true => exact absurd hb hH
        have hxff : ¬(xf = true) := by
          rw [hxf, hHf, Bool.false_and]
          exact Bool.false_ne_true
        simp only [if_neg hH]
        rw [hv2, if_neg hxff]
    rw [e_fr]
    simp only [List.map_cons]
    obtain ⟨v3, hv3⟩ : ∃ x, x = ({ v2 with
        models := rename_models_fp ([]) (lookup_rep reps0 v2.ref) v2.models } :
        Footprint) := ⟨_, rfl⟩
    rw [← hv3]
    have hv3ref : v3.ref = fp.ref := by rw [hv3, update_models_ref, hv2ref]
    have hdnpv3 : dnp_selected ch v3 = false := by
      rw [dnp_selected_congr ch fp v3 hv3ref, hdnp]
    rw [restore_3D_list_cons_neg ch v3 _ t.2.1 hdnpv3]
    simp only [List.map_cons]
    have hlk : lookup_rep reps0 v2.ref = some q.2 := by
      rw [hv2ref]
      rw [hag fp.ref (by
        rw [List.map_cons]
        exact List.mem_cons_self _ _)]
      rw [ho22]
      exact lookup_rep_cons_self fp.ref q.2 t.2.2 hkeys
    obtain ⟨reps, hlen, hq⟩ := replace_ok_inv f4.models
      (get_field_value c G.field_3D_model) c q hrep
    have hq1 : q.1 = (f4.models.reverse.zipWith
        (fun m r => { m with filename := r }) reps).reverse := by rw [hq]
    have hq2 : q.2 = f4.models.reverse.map (fun m => m.filename) := by rw [hq]
    have hren : rename_models_fp ([]) (lookup_rep reps0 v2.ref) q.1 =
        f4.models := by
      rw [hlk, hq1, hq2]
      exact rename_models_fp_replaced f4.models reps hlen
    have hhead : aspect_fp vname mv true v3 = fp :=
      nondnp_head_roundtrip G L vname mv fp xf f3 f4 u0 v2 v3
        (lookup_rep reps0 v2.ref) q.1 hf3 hf4 hu0 hv2 hren hv3
    rw [hhead]
    have hag2 : ∀ r, r ∈ rest.map (fun q2 => q2.ref) →
        lookup_rep reps0 r = lookup_rep t.2.2 r := by
      intro r hr
      have h := hag r (by
        rw [List.map_cons]
        exact List.mem_cons_of_mem _ hr)
      rw [ho22] at h
      rw [lookup_rep_cons_ne (fp.ref, q.2) t.2.2 r (fun heq => hnotin (by
        have heq2 : fp.ref = r := heq
        rw [heq2]
        exact hr))] at h
      exact h
    exact congrArg (List.cons fp)
      (htail t1 t2 t3 cf cb ols ads fabs1 warns1 t hag2 h1t h2t h3t h4t)
  · -- plain branch (no replacement)
    obtain ⟨u0, hu0d⟩ : ∃ x, x = f4 := ⟨_, rfl⟩
    rw [← hu0d] at hout
    have hu0 : u0 = ({ f4 with models := f4.models } : Footprint) := by
      rw [hu0d, update_models_self]
    have ho1 : out.1 = u0 :: t.1 := by rw [hout]
    have ho21 : out.2.1 = t.2.1 := by rw [hout]
    have ho22 : out.2.2 = t.2.2 := by rw [hout]
    have hu0ref : u0.ref = fp.ref := by rw [hu0d, hf4ref]
    have hdnpu0 : dnp_selected ch u0 = false := by
      rw [dnp_selected_congr ch fp u0 hu0ref, hdnp]
    have hexcu0 : excluded_selected ch u0 = excluded_selected ch fp :=
      excluded_selected_congr ch fp u0 hu0ref
    obtain ⟨v2, hv2⟩ : ∃ x, x = if xf = true then
        ({ u0 with
          gitems := restore_two L.ffab L.bfab (fab_fp L fp).2.1 (fab_fp L fp).2.2 0 u0.gitems } :
          Footprint)
        else u0 := ⟨_, rfl⟩
    have hv2ref : v2.ref = fp.ref := by
      rw [hv2]
      split
      · rw [update_gitems_ref, hu0ref]
      · exact hu0ref
    rw [ho1, ho21]
    have e_un : (if G.cross_footprints_for_dnp = true then
        uncross_list ch (u0 :: t.1) cf cb else u0 :: t.1) =
        u0 :: (if G.cross_footprints_for_dnp = true then
          uncross_list ch t.1 cf cb else t.1) := by
      by_cases hcF : G.cross_footprints_for_dnp = true
      · simp only [if_pos hcF]
        rw [uncross_list_cons_neg ch u0 t.1 cf cb hdnpu0]
      · simp only [if_neg hcF]
    rw [e_un]
    rw [paste_restore_list_cons_neg G L ch u0 _ ols ads hdnpu0]
    have e_fr : (if hide = true then
        fab_restore_list L ch (u0 :: paste_restore_list G L ch
          (if G.cross_footprints_for_dnp = true then
            uncross_list ch t.1 cf cb else t.1) ols ads) fabs
        else u0 :: paste_restore_list G L ch
          (if G.cross_footprints_for_dnp = true then
            uncross_list ch t.1 cf cb else t.1) ols ads) =
        v2 :: (if hide = true then
          fab_restore_list L ch (paste_restore_list G L ch
            (if G.cross_footprints_for_dnp = true then
              uncross_list ch t.1 cf cb else t.1) ols ads) fabs1
          else paste_restore_list G L ch
            (if G.cross_footprints_for_dnp = true then
              uncross_list ch t.1 cf cb else t.1) ols ads) := by
      by_cases hH : hide = true
      · simp only [if_pos hH]
        cases hexc : excluded_selected ch fp with
        | true =>
          have hxft : xf = true := by
            rw [hxf, hH, hexc]
            rfl
          rw [hfabsh, if_pos hxft]
          rw [fab_restore_list_cons_pos L ch u0 _ _
            (by rw [hexcu0]; exact hexc)]
          simp only [List.headD_cons, List.tail_cons]
          rw [hv2, if_pos hxft]
        | false =>
          have hxff : ¬(xf = true) := by
            rw [hxf, hexc, Bool.and_false]
            exact Bool.false_ne_true
          rw [hfabsh, if_neg hxff]
          rw [fab_restore_list_cons_neg L ch u0 _ fabs1
            (by rw [hexcu0]; exact hexc)]
          rw [hv2, if_neg hxff]
      · have hHf : hide = false := by
          cases hb : hide with
          | false => rfl
          | true => exact absurd hb hH
        have hxff : ¬(xf = true) := by
          rw [hxf, hHf, Bool.false_and]
          exact Bool.false_ne_true
        simp only [if_neg hH]
        rw [hv2, if_neg hxff]
    rw [e_fr]
    simp only [List.map_cons]
    obtain ⟨v3, hv3⟩ : ∃ x, x = ({ v2 with
        models := rename_models_fp ([]) (lookup_rep reps0 v2.ref) v2.models } :
        Footprint) := ⟨_, rfl⟩
    rw [← hv3]
    have hv3ref : v3.ref = fp.ref := by rw [hv3, update_models_ref, hv2ref]
    have hdnpv3 : dnp_selected ch v3 = false := by
      rw [dnp_selected_congr ch fp v3 hv3ref, hdnp]
    rw [restore_3D_list_cons_neg ch v3 _ t.2.1 hdnpv3]
    simp only [List.map_cons]
    have hlk : lookup_rep reps0 v2.ref = none := by
      rw [hv2ref]
      rw [hag fp.ref (by
        rw [List.map_cons]
        exact List.mem_cons_self _ _)]
      rw [ho22]
      exact lookup_rep_not_mem t.2.2 fp.ref hkeys
    have hren : rename_models_fp ([]) (lookup_rep reps0 v2.ref) f4.models =
        f4.models := by
      rw [hlk]
      exact rename_models_fp_none f4.models
    have hhead : aspect_fp vname mv true v3 = fp :=
      nondnp_head_roundtrip G L vname mv fp xf f3 f4 u0 v2 v3
        (lookup_rep reps0 v2.ref) f4.models hf3 hf4 hu0 hv2 hren hv3
    rw [hhead]
    have hag2 : ∀ r, r ∈ rest.map (fun q2 => q2.ref) →
        lookup_rep reps0 r = lookup_rep t.2.2 r := by
      intro r hr
      have h := hag r (by
        rw [List.map_cons]
        exact List.mem_cons_of_mem _ hr)
      rw [ho22] at h
      exact h
    exact congrArg (List.cons fp)
      (htail t1 t2 t3 cf cb ols ads fabs1 warns1 t hag2 h1t h2t h3t h4t)

/-- The full round trip at the footprint-list level, for any board whose
footprint references are distinct. -/
theorem filter_restores_of_nodup (G : Globals) (L : LayerIds) (vname : String)
    (mv : String → Bool) (ch : String → Option Component) (hide : Bool)
    (reps0 : List (String × List String))
    (hch : ∀ r c, ch r = some c → c.ref = r)
    (hs1 : ¬L.ffab = L.fadhes) (hs2 : ¬L.ffab = L.badhes)
    (hs3 : ¬L.bfab = L.fadhes) (hs4 : ¬L.bfab = L.badhes) :
    ∀ fps : List Footprint, (fps.map (fun q => q.ref)).Nodup →
      FilterRestores G L vname mv ch hide reps0 fps := by
  intro fps
  induction fps with
  | nil =>
    intro _
    exact filter_restores_nil G L vname mv ch hide reps0
  | cons fp rest ih =>
    intro hnd
    rw [List.map_cons, List.nodup_cons] at hnd
    by_cases hdnp : dnp_selected ch fp = true
    · exact filter_restores_cons_dnp G L vname mv ch hide reps0
        hs1 hs2 hs3 hs4 fp rest hdnp (ih hnd.2)
    · have hdnpf : dnp_selected ch fp = false := by
        cases hb : dnp_selected ch fp with
        | false => rfl
        | true => exact absurd hb hdnp
      exact filter_restores_cons_nondnp G L vname mv ch hide reps0 hch
        fp rest hdnpf hnd.1 (ih hnd.2)

/-- C2: `filter_pcb_components` followed by `unfilter_pcb_components` is the
identity on the observable board state.  For every board whose footprint
references are distinct (the reference is the key of the component table and
of the rename-undo dict), with the fab layers distinct from the adhesive
layers (distinct physical layers), and with no highlight requested, if the
filter pass succeeds then the unfilter pass returns every graphical item to
its original layer, every pad to its original layer set and every 3D model to
its original filename — the restored board equals the original one, covering
cross/uncross, paste/adhesive removal/restore, fab removal/restore and 3D
model removal/replacement/rename/restore, for any component list (any
decision set, including the empty one). -/
theorem C2_filter_unfilter_roundtrip (G : Globals) (L : LayerIds)
    (vname : String) (mv : String → Bool) (comps : List Component)
    (hide_excluded : Bool) (hfile : String) (b : Board)
    (out : Board × PcbUndo × Bool)
    (hnd : (b.footprints.map (fun q => q.ref)).Nodup)
    (hs1 : ¬L.ffab = L.fadhes) (hs2 : ¬L.ffab = L.badhes)
    (hs3 : ¬L.bfab = L.fadhes) (hs4 : ¬L.bfab = L.badhes)
    (hok : filter_pcb_components G L vname mv comps hide_excluded true true
      none hfile b = .ok out) :
    unfilter_pcb_components G L vname mv comps hide_excluded true true
      out.2.1 out.1 = b := by
  by_cases hempty : comps.isEmpty = true
  · unfold filter_pcb_components at hok
    rw [if_pos hempty] at hok
    simp only [Except.ok.injEq] at hok
    unfold unfilter_pcb_components
    rw [if_pos hempty, ← hok]
  · obtain ⟨ch, hch0⟩ : ∃ x, x = refs_hash comps := ⟨_, rfl⟩
    obtain ⟨c, hc⟩ : ∃ x, x = cross_modules G L ch b := ⟨_, rfl⟩
    obtain ⟨p, hp⟩ : ∃ x, x = remove_paste_and_glue G L ch c.1 := ⟨_, rfl⟩
    obtain ⟨f, hf⟩ : ∃ x, x =
        if hide_excluded then remove_fab L ch p.1 else (p.1, []) := ⟨_, rfl⟩
    obtain ⟨b2, hb2⟩ : ∃ x, x = apply_3D_variant_aspect vname mv false f.1 :=
      ⟨_, rfl⟩
    unfold filter_pcb_components at hok
    rw [if_neg hempty] at hok
    simp only [eq_self_iff_true, if_true] at hok
    rw [← hch0, ← hc, ← hp, ← hf, ← hb2] at hok
    cases hrm : remove_3D_models G ch b2 with
    | error e =>
      rw [hrm] at hok
      simp only [Except.bind, bind] at hok
      exact Except.noConfusion hok
    | ok r =>
      rw [hrm] at hok
      simp only [Except.bind, bind, highlight_3D_models, Except.ok.injEq]
        at hok
      have hch' : ∀ rr cc, ch rr = some cc → cc.ref = rr := by
        intro rr cc hx
        rw [hch0] at hx
        exact refs_hash_ref comps rr cc hx
      have h1' : (if G.cross_footprints_for_dnp = true then
          cross_list L ch b.footprints else (b.footprints, [], [])) =
          (c.1.footprints, c.2.1, c.2.2) := by
        rw [hc]
        unfold cross_modules
        by_cases hcF : G.cross_footprints_for_dnp = true
        · simp only [if_pos hcF]
        · simp only [if_neg hcF]
      have h2' : (if G.remove_solder_paste_for_dnp = true ∨
          G.remove_adhesive_for_dnp = true then
          paste_list G L ch c.1.footprints
          else (c.1.footprints, [], [], [])) =
          (p.1.footprints, p.2.1, p.2.2.1, p.2.2.2) := by
        rw [hp]
        unfold remove_paste_and_glue
        by_cases hQ : G.remove_solder_paste_for_dnp = true ∨
          G.remove_adhesive_for_dnp = true
        · simp only [if_pos hQ]
        · simp only [if_neg hQ]
      have h3' : (if hide_excluded = true then fab_list L ch p.1.footprints
          else (p.1.footprints, [])) = (f.1.footprints, f.2) := by
        rw [hf]
        unfold remove_fab
        by_cases hH : hide_excluded = true
        · simp only [if_pos hH]
        · simp only [if_neg hH]
      have h4' : remove_3D_list G ch
          (f.1.footprints.map (aspect_fp vname mv false)) =
          .ok (r.1.footprints, r.2.1, r.2.2) := by
        rw [hb2] at hrm
        unfold remove_3D_models at hrm
        have hfoot : (apply_3D_variant_aspect vname mv false f.1).footprints =
            f.1.footprints.map (aspect_fp vname mv false) := rfl
        rw [hfoot] at hrm
        cases hx : remove_3D_list G ch
            (f.1.footprints.map (aspect_fp vname mv false)) with
        | error e =>
          rw [hx] at hrm
          simp only [Except.map] at hrm
          exact Except.noConfusion hrm
        | ok y =>
          rw [hx] at hrm
          simp only [Except.map, Except.ok.injEq] at hrm
          have e1 : r.1.footprints = y.1 := by rw [← hrm]
          have e2 : r.2.1 = y.2.1 := by rw [← hrm]
          have e3 : r.2.2 = y.2.2 := by rw [← hrm]
          rw [e1, e2, e3]
      have htl := filter_restores_of_nodup G L vname mv ch hide_excluded
        r.2.2 hch' hs1 hs2 hs3 hs4 b.footprints hnd
        c.1.footprints p.1.footprints f.1.footprints c.2.1 c.2.2
        p.2.1 p.2.2.1 f.2 p.2.2.2 (r.1.footprints, r.2.1, r.2.2)
        (fun _ _ => rfl) h1' h2' h3' h4'
      unfold unfilter_pcb_components
      rw [if_neg hempty]
      simp only [eq_self_iff_true, if_true]
      rw [← hch0, ← hok]
      simp only [unhighlight_3D_models, restore_3D_models,
        undo_3d_models_rename, apply_3D_variant_aspect, uncross_modules,
        restore_paste_and_glue, restore_fab]
      by_cases hH : hide_excluded = true
      · simp only [if_pos hH] at htl ⊢
        by_cases hcF : G.cross_footprints_for_dnp = true
        · simp only [if_pos hcF] at htl ⊢
          exact (congrArg Board.mk htl).trans rfl
        · simp only [if_neg hcF] at htl ⊢
          exact (congrArg Board.mk htl).trans rfl
      · simp only [if_neg hH] at htl ⊢
        by_cases hcF : G.cross_footprints_for_dnp = true
        · simp only [if_pos hcF] at htl ⊢
          exact (congrArg Board.mk htl).trans rfl
        · simp only [if_neg hcF] at htl ⊢
          exact (congrArg Board.mk htl).trans rfl

theorem C2_filter_unfilter_roundtrip_witness :
    (((⟨[⟨"R1", [], [], [⟨"m"⟩]⟩]⟩ : Board).footprints.map
        (fun q => q.ref)).Nodup ∧
      filter_pcb_components ⟨true, true, true, "F3D"⟩
        ⟨0, 1, 2, 3, 4, 5, 6, 7, 8, 9, 10⟩ "V" (fun _ => false)
        [⟨"R1", false, true, []⟩] true true true none "hl"
        ⟨[⟨"R1", [], [], [⟨"m"⟩]⟩]⟩ =
        .ok (⟨[⟨"R1", [], [], []⟩]⟩,
          ⟨[false], [false], [[]], [([], [])], [], [[⟨"m"⟩]], [], [], none⟩,
          true)) ∧
    unfilter_pcb_components ⟨true, true, true, "F3D"⟩
      ⟨0, 1, 2, 3, 4, 5, 6, 7, 8, 9, 10⟩ "V" (fun _ => false)
      [⟨"R1", false, true, []⟩] true true true
      (⟨[false], [false], [[]], [([], [])], [], [[⟨"m"⟩]], [], [], none⟩ :
        PcbUndo)
      (⟨[⟨"R1", [], [], []⟩]⟩ : Board) = ⟨[⟨"R1", [], [], [⟨"m"⟩]⟩]⟩ :=
  ⟨⟨by decide, by rfl⟩,
    C2_filter_unfilter_roundtrip ⟨true, true, true, "F3D"⟩
      ⟨0, 1, 2, 3, 4, 5, 6, 7, 8, 9, 10⟩ "V" (fun _ => false)
      [⟨"R1", false, true, []⟩] true "hl" ⟨[⟨"R1", [], [], [⟨"m"⟩]⟩]⟩
      (⟨[⟨"R1", [], [], []⟩]⟩,
        ⟨[false], [false], [[]], [([], [])], [], [[⟨"m"⟩]], [], [], none⟩,
        true)
      (by decide) (by decide) (by decide) (by decide) (by decide) (by rfl)⟩

end KiBot
